import Mathlib

/-!
The command `eksctl create nodegroup`: the orchestration of
`pkg/ctl/create/nodegroup.go`.

A shallow embedding of `filterNodeGroups`, `checkVersion` and
`doCreateNodeGroups`.  Go strings are `String`, an `error` is its message
(`Option String`, `none` for `nil`), pointers to the configuration are the
configuration carried in the state, and every call that leaves the file
(the `eks` cluster provider, the stack manager, the auth config map, the
logger) is an entry of an environment that acts on an abstract world and is
recorded in a trace.
-/

namespace Eksctl

/-! ## Data model -/

/-- The fields of `api.NodeGroup` that `nodegroup.go` reads or writes. -/
structure NodeGroup where
  Name : String
  InstanceType : String
  AMI : String
  AMIFamily : String
  AllowSSH : Bool
  SSHPublicKeyPath : String
deriving DecidableEq, Repr

/-- The type `api.ClusterMeta`. -/
structure ClusterMeta where
  Name : String
  Region : String
  Version : String
deriving DecidableEq, Repr

/-- The fields of `api.ClusterConfig` that `nodegroup.go` reads or writes; the
rest of the configuration (VPC, status) is only handed on to the provider and
lives in the world. -/
structure ClusterConfig where
  Metadata : ClusterMeta
  NodeGroups : List NodeGroup
deriving DecidableEq, Repr

/-- The field of `api.ProviderConfig` that `nodegroup.go` writes. -/
structure ProviderConfig where
  Region : String
deriving DecidableEq, Repr

/-- The package-level variables `clusterConfigFile`, `nodeGroupFilter` and
`updateAuthConfigMap`, set by the flag parser before `doCreateNodeGroups`. -/
structure Globals where
  clusterConfigFile : String
  nodeGroupFilter : String
  updateAuthConfigMap : Bool
deriving DecidableEq, Repr

/-- How a Go function call ends: `return nil`, `return err`, or a panic.  For a
block inside a function, `nil` is control reaching the end of the block. -/
inductive Ret where
  | nil
  | err (msg : String)
  | panic
deriving DecidableEq, Repr

/-- Severity of a `logger` call. -/
inductive Level where
  | Info
  | Warning
  | Critical
  | Success
deriving DecidableEq, Repr

/-- One observable action of the command: a call to a collaborator, with what
it returned, or a line handed to the logger. -/
inductive Event where
  | Register (err : Option String)
  | LoadConfigFromFile (path : String) (err : Option String)
  | newNodeGroupChecker (ng : String) (err : Option String)
  | NodeGroupName (flagName nameArg result : String)
  | New
  | IsSupportedRegion (supported : Bool)
  | CheckAuth (err : Option String)
  | GetCredentials (err : Option String)
  | ControlPlaneVersion (v : String)
  | GetClusterVPC (err : Option String)
  | EnsureAMI (version ng : String) (err : Option String)
  | SetNodeLabels (ng : String) (err : Option String)
  | LoadSSHPublicKey (ng : String) (err : Option String)
  | LogObj (err : Option String)
  | NewStackManager
  | ValidateClusterForCompatibility (err : Option String)
  | CreateAllNodeGroups (units : List String) (errs : List (Option String))
  | NewStdClientSet (err : Option String)
  | AddNodeGroup (ng : String) (err : Option String)
  | WaitForNodes (ng : String) (err : Option String)
  | ValidateExistingNodeGroupsForCompatibility (err : Option String)
  | log (lvl : Level) (msg : String)
deriving DecidableEq, Repr

/-- Everything `nodegroup.go` calls but does not define.  `σ` is the state of
the world outside the command (AWS, the cluster, the file system, the random
source); a collaborator reads and updates it.  A collaborator handed a
`*NodeGroup` before creation may update that unit, and `LoadConfigFromFile`
rewrites the configuration. -/
structure Env (σ : Type) where
  /-- The call `api.SupportedVersions()`. -/
  SupportedVersions : List String
  /-- The constant `api.LatestVersion`. -/
  LatestVersion : String
  /-- The call `api.Register()`. -/
  Register : σ → Option String × σ
  /-- The call `glob.MustCompile(g)` followed by `Match` of the result: `none`
  when the pattern does not compile, where `MustCompile` panics. -/
  MustCompile : String → Option (String → Bool)
  /-- The verb `%q` of package `fmt`. -/
  Quote : String → String
  /-- The call `eks.LoadConfigFromFile(path, cfg)`. -/
  LoadConfigFromFile : String → ClusterConfig → σ → (Option String × ClusterConfig) × σ
  /-- The field `cmd.Flag(f).Changed` of a flag of the command. -/
  FlagChanged : String → Bool
  /-- The check `newNodeGroupChecker`, handed the position of the unit. -/
  newNodeGroupChecker : Nat → NodeGroup → σ → (Option String × NodeGroup) × σ
  /-- The call `utils.NodeGroupName(name, nameArg)`, which may draw a random name. -/
  NodeGroupName : String → String → σ → String × σ
  /-- The error `cmdutils.ErrNameFlagAndArg(name, nameArg)`. -/
  ErrNameFlagAndArg : String → String → String
  /-- The error `cmdutils.ErrUnsupportedRegion(p)`. -/
  ErrUnsupportedRegion : ProviderConfig → String
  /-- The call `eks.New(p, cfg)`. -/
  New : ProviderConfig → ClusterConfig → σ → σ
  /-- The call `ctl.IsSupportedRegion()`. -/
  IsSupportedRegion : σ → Bool × σ
  /-- The call `ctl.CheckAuth()`. -/
  CheckAuth : σ → Option String × σ
  /-- The call `ctl.GetCredentials(cfg)`. -/
  GetCredentials : ClusterConfig → σ → Option String × σ
  /-- The call `ctl.ControlPlaneVersion()`; the empty string when unknown. -/
  ControlPlaneVersion : σ → String × σ
  /-- The call `ctl.GetClusterVPC(cfg)`. -/
  GetClusterVPC : ClusterConfig → σ → Option String × σ
  /-- The call `ctl.EnsureAMI(version, ng)`. -/
  EnsureAMI : String → NodeGroup → σ → (Option String × NodeGroup) × σ
  /-- The call `ctl.SetNodeLabels(ng, meta)`. -/
  SetNodeLabels : NodeGroup → ClusterMeta → σ → (Option String × NodeGroup) × σ
  /-- The call `ctl.LoadSSHPublicKey(clusterName, ng)`. -/
  LoadSSHPublicKey : String → NodeGroup → σ → (Option String × NodeGroup) × σ
  /-- The call `printer.LogObj(logger.Debug, ..., cfg)`. -/
  LogObj : ClusterConfig → σ → Option String × σ
  /-- The call `ctl.NewStackManager(cfg)`. -/
  NewStackManager : ClusterConfig → σ → σ
  /-- The call `ctl.ValidateClusterForCompatibility(cfg, stackManager)`. -/
  ValidateClusterForCompatibility : ClusterConfig → σ → Option String × σ
  /-- The call `stackManager.CreateAllNodeGroups()`, on the configuration the
  stack manager was built from; the slice of errors it returns. -/
  CreateAllNodeGroups : ClusterConfig → σ → List (Option String) × σ
  /-- The call `ctl.NewStdClientSet(cfg)`. -/
  NewStdClientSet : ClusterConfig → σ → Option String × σ
  /-- The call `authconfigmap.AddNodeGroup(clientSet, ng)`. -/
  AddNodeGroup : NodeGroup → σ → Option String × σ
  /-- The call `ctl.WaitForNodes(clientSet, ng)`. -/
  WaitForNodes : NodeGroup → σ → Option String × σ
  /-- The test `utils.IsGPUInstanceType(instanceType)`. -/
  IsGPUInstanceType : String → Bool
  /-- The call `ctl.ValidateExistingNodeGroupsForCompatibility(cfg, stackManager)`. -/
  ValidateExistingNodeGroupsForCompatibility : ClusterConfig → σ → Option String × σ

/-- The state a run of the command carries: the world, the provider
configuration `p`, the cluster configuration `cfg` (with `meta` an alias of
`cfg.Metadata`), and the trace of events so far, oldest first. -/
structure St (σ : Type) where
  world : σ
  p : ProviderConfig
  cfg : ClusterConfig
  trace : List Event

/-- A block of `doCreateNodeGroups`: it updates the state and either falls
through (`Ret.nil`) or leaves the function. -/
abbrev Step (σ : Type) := St σ → Ret × St σ

/-- Append an event to the trace. -/
def St.emit {σ : Type} (s : St σ) (e : Event) : St σ :=
  { s with trace := s.trace ++ [e] }

/-- Go's `if err != nil { return err }` on an error value. -/
def retOf : Option String → Ret
  | none => Ret.nil
  | some e => Ret.err e

/-- Sequencing of two blocks: the second runs only when the first falls through. -/
def seq {σ : Type} (f g : Step σ) : Step σ := fun s =>
  match f s with
  | (Ret.nil, s1) => g s1
  | (r, s1) => (r, s1)

/-! ## `strings.Split` with a one-character separator -/

namespace strings

/-- The loop of `strings.Split`: `cur` is the piece being read, reversed. -/
def splitLoop (sep : Char) : List Char → List Char → List String
  | [], cur => [String.mk cur.reverse]
  | c :: cs, cur =>
    if c = sep then String.mk cur.reverse :: splitLoop sep cs []
    else splitLoop sep cs (c :: cur)

/-- The call `strings.Split(s, sep)` for a separator of one character: the
pieces of `s` between separators, empty pieces included. -/
def Split (s : String) (sep : Char) : List String :=
  splitLoop sep s.toList []

/-- The call `strings.Join(elems, sep)`. -/
def Join (elems : List String) (sep : String) : String :=
  sep.intercalate elems

end strings

/-! ## `filterNodeGroups` -/

/-- The loop `for idx, g := range globstrs { globs[idx] = glob.MustCompile(g) }`:
`none` when some `MustCompile` panics. -/
def compileGlobs {σ : Type} (env : Env σ) : List String → Option (List (String → Bool))
  | [] => some []
  | g :: rest =>
    match env.MustCompile g with
    | none => none
    | some m =>
      match compileGlobs env rest with
      | none => none
      | some ms => some (m :: ms)

/-- The inner loop `for _, g := range globs { if g.Match(ng.Name) { ...; break } }`:
whether the unit is appended. -/
def matchLoop : List (String → Bool) → String → Bool
  | [], _ => false
  | g :: rest, name => if g name then true else matchLoop rest name

/-- The outer loop `for _, ng := range nodegroups`, appending to `filtered`. -/
def filterLoop (globs : List (String → Bool)) : List NodeGroup → List NodeGroup → List NodeGroup
  | [], filtered => filtered
  | ng :: rest, filtered =>
    if matchLoop globs ng.Name then filterLoop globs rest (filtered ++ [ng])
    else filterLoop globs rest filtered

/-- The function `filterNodeGroups(cfg)`: the result and the configuration
afterwards. -/
def filterNodeGroups {σ : Type} (env : Env σ) (g : Globals) (cfg : ClusterConfig) :
    Ret × ClusterConfig :=
  if g.nodeGroupFilter = "" then (Ret.nil, cfg)
  else
    match compileGlobs env (strings.Split g.nodeGroupFilter ',') with
    | none => (Ret.panic, cfg)
    | some globs =>
      let filtered := filterLoop globs cfg.NodeGroups []
      if filtered.length = 0 then
        (Ret.err ("No nodegroups match filter specification: " ++ g.nodeGroupFilter), cfg)
      else (Ret.nil, { cfg with NodeGroups := filtered })

/-! ## `checkVersion` -/

/-- The loop `for _, v := range api.SupportedVersions()` of `checkVersion`,
started with `validVersion` as given. -/
def validVersionLoop (version : String) : List String → Bool → Bool
  | [], valid => valid
  | v :: rest, valid => validVersionLoop version rest (if version = v then true else valid)

/-- The `switch meta.Version` of `checkVersion`: the early return, the version
left in `meta`, and the lines logged. -/
def versionSwitch {σ : Type} (env : Env σ) (version : String) : Ret × String × List Event :=
  if version = "auto" then (Ret.nil, version, [])
  else if version = "" then (Ret.nil, "auto", [])
  else if version = "latest" then
    (Ret.nil, env.LatestVersion,
      [Event.log Level.Info
        ("will use version latest version (" ++ env.LatestVersion ++ ") for new nodegroup(s)")])
  else if validVersionLoop version env.SupportedVersions false then (Ret.nil, version, [])
  else
    (Ret.err ("invalid version " ++ version ++ ", supported values: auto, latest, "
      ++ strings.Join env.SupportedVersions ", "), version, [])

/-- Write `meta.Version`. -/
def St.setVersion {σ : Type} (s : St σ) (v : String) : St σ :=
  { s with cfg := { s.cfg with Metadata := { s.cfg.Metadata with Version := v } } }

/-- The function `checkVersion(ctl, meta)`, with `meta` the metadata of the
configuration in the state. -/
def checkVersion {σ : Type} (env : Env σ) (g : Globals) : Step σ := fun s =>
  match versionSwitch env s.cfg.Metadata.Version with
  | (Ret.nil, version, logs) =>
    let s1 : St σ := { s.setVersion version with trace := s.trace ++ logs }
    let (v, w) := env.ControlPlaneVersion s1.world
    let s2 : St σ := { s1 with world := w, trace := s1.trace ++ [Event.ControlPlaneVersion v] }
    if v = "" then (Ret.err "unable to get control plane version", s2)
    else if version = "auto" then
      (Ret.nil, (s2.setVersion v).emit (Event.log Level.Info
        ("will use version " ++ v ++ " for new nodegroup(s) based on control plane version")))
    else if version ≠ v then
      let hint := if g.clusterConfigFile ≠ "" then "metadata.version: auto" else "--version=auto"
      (Ret.nil, s2.emit (Event.log Level.Warning
        ("will use version " ++ version ++ " for new nodegroup(s), while control plane version is "
          ++ v ++ "; to automatically inherit the version use " ++ env.Quote hint)))
    else (Ret.nil, s2)
  | (r, version, logs) => (r, { s.setVersion version with trace := s.trace ++ logs })

/-! ## `doCreateNodeGroups` -/

/-- Modelled from the spec: the loop of `checkEachNodeGroup`, a function of
package `create` that is not among the sources at hand, from position `i` on.
Per the spec the per-unit phases go "one unit at a time", "in the
specification's stable order", and abort "on the first unit that fails".  The
result, the units as the checks left them, and the state. -/
def eachNodeGroup {σ : Type} (check : Nat → NodeGroup → St σ → Ret × NodeGroup × St σ) :
    Nat → List NodeGroup → St σ → Ret × List NodeGroup × St σ
  | _, [], s => (Ret.nil, [], s)
  | i, ng :: rest, s =>
    match check i ng s with
    | (Ret.nil, ng1, s1) =>
      match eachNodeGroup check (i + 1) rest s1 with
      | (r, rest1, s2) => (r, ng1 :: rest1, s2)
    | (r, ng1, s1) => (r, ng1 :: rest, s1)

/-- Modelled from the spec: `checkEachNodeGroup(cfg, check)`, defined in a file of
package `create` that is not among the sources at hand: the check runs on
each unit of `cfg.NodeGroups` in order, the first error is returned at once,
and what the check wrote to a unit stays in the configuration. -/
def checkEachNodeGroup {σ : Type} (check : Nat → NodeGroup → St σ → Ret × NodeGroup × St σ) :
    Step σ := fun s =>
  match eachNodeGroup check 0 s.cfg.NodeGroups s with
  | (r, ngs, s1) => (r, { s1 with cfg := { s1.cfg with NodeGroups := ngs } })

/-- The statement `if err := api.Register(); err != nil { return err }`. -/
def registerStep {σ : Type} (env : Env σ) : Step σ := fun s =>
  match env.Register s.world with
  | (err, w) => (retOf err, { s with world := w, trace := s.trace ++ [Event.Register err] })

/-- The slice `incompatibleFlags`. -/
def incompatibleFlags : List String :=
  ["name", "cluster", "version", "region", "nodes", "nodes-min", "nodes-max", "node-type",
   "node-volume-size", "node-volume-type", "max-pods-per-node", "node-ami", "node-ami-family",
   "ssh-access", "ssh-public-key", "node-private-networking", "node-security-groups",
   "node-labels", "node-zones", "asg-access", "external-dns-access", "full-ecr-access"]

/-- The loop `for _, f := range incompatibleFlags { if cmd.Flag(f).Changed { return ... } }`:
the flag it returns on, if any. -/
def firstChangedFlag {σ : Type} (env : Env σ) : List String → Option String
  | [] => none
  | f :: rest => if env.FlagChanged f then some f else firstChangedFlag env rest

/-- The check handed to `checkEachNodeGroup` when a config file is used. -/
def configFileCheck {σ : Type} (env : Env σ) (i : Nat) (ng : NodeGroup) (s : St σ) :
    Ret × NodeGroup × St σ :=
  match env.newNodeGroupChecker i ng s.world with
  | ((err, ng1), w) =>
    (retOf err, ng1,
      { s with world := w, trace := s.trace ++ [Event.newNodeGroupChecker ng.Name err] })

/-- The branch `if clusterConfigFile != ""` of `doCreateNodeGroups`. -/
def configFileBranch {σ : Type} (env : Env σ) (g : Globals) : Step σ := fun s =>
  match env.LoadConfigFromFile g.clusterConfigFile s.cfg s.world with
  | ((some e, cfg1), w) =>
    (Ret.err e, { s with world := w, cfg := cfg1,
                         trace := s.trace ++ [Event.LoadConfigFromFile g.clusterConfigFile (some e)] })
  | ((none, cfg1), w) =>
    let s1 : St σ := { s with world := w, cfg := cfg1,
                              trace := s.trace ++ [Event.LoadConfigFromFile g.clusterConfigFile none] }
    if cfg1.Metadata.Name = "" then (Ret.err "metadata.name must be set", s1)
    else if cfg1.Metadata.Region = "" then (Ret.err "metadata.region must be set", s1)
    else
      let s2 : St σ := { s1 with p := { s1.p with Region := cfg1.Metadata.Region } }
      match filterNodeGroups env g cfg1 with
      | (Ret.nil, cfg2) =>
        let s3 : St σ := { s2 with cfg := cfg2 }
        match firstChangedFlag env incompatibleFlags with
        | some f => (Ret.err ("cannot use --" ++ f ++ " when --config-file/-f is set"), s3)
        | none => checkEachNodeGroup (configFileCheck env) s3
      | (r, cfg2) => (r, { s2 with cfg := cfg2 })

/-- The check handed to `checkEachNodeGroup` when no config file is used. -/
def flagsCheck {σ : Type} (env : Env σ) (nameArg : String) (_i : Nat) (ng : NodeGroup)
    (s : St σ) : Ret × NodeGroup × St σ :=
  if ng.AllowSSH = true ∧ ng.SSHPublicKeyPath = "" then
    (Ret.err "--ssh-public-key must be non-empty string", ng, s)
  else
    match env.NodeGroupName ng.Name nameArg s.world with
    | (n1, w1) =>
      let s1 : St σ :=
        { s with world := w1, trace := s.trace ++ [Event.NodeGroupName ng.Name nameArg n1] }
      if n1 = "" then (Ret.err (env.ErrNameFlagAndArg ng.Name nameArg), ng, s1)
      else
        match env.NodeGroupName ng.Name nameArg w1 with
        | (n2, w2) =>
          (Ret.nil, { ng with Name := n2 },
            { s1 with world := w2, trace := s1.trace ++ [Event.NodeGroupName ng.Name nameArg n2] })

/-- The `else` branch of `if clusterConfigFile != ""`. -/
def flagsBranch {σ : Type} (env : Env σ) (g : Globals) (nameArg : String) : Step σ := fun s =>
  if s.cfg.Metadata.Name = "" then (Ret.err "--cluster must be set", s)
  else if g.nodeGroupFilter ≠ "" then
    (Ret.err "cannot use --only unless a config file is specified via --config-file/-f", s)
  else checkEachNodeGroup (flagsCheck env nameArg) s

/-- The statements from `ctl := eks.New(p, cfg)` to `logger.Info("using region %s", ...)`. -/
def providerStep {σ : Type} (env : Env σ) : Step σ := fun s =>
  match env.IsSupportedRegion (env.New s.p s.cfg s.world) with
  | (ok, w) =>
    let s1 : St σ :=
      { s with world := w, trace := s.trace ++ [Event.New, Event.IsSupportedRegion ok] }
    if ok = false then (Ret.err (env.ErrUnsupportedRegion s.p), s1)
    else (Ret.nil, s1.emit (Event.log Level.Info ("using region " ++ s.cfg.Metadata.Region)))

/-- The statement `if err := ctl.CheckAuth(); err != nil { return err }`. -/
def checkAuthStep {σ : Type} (env : Env σ) : Step σ := fun s =>
  match env.CheckAuth s.world with
  | (err, w) => (retOf err, { s with world := w, trace := s.trace ++ [Event.CheckAuth err] })

/-- The message of `errors.Wrapf(err, format, ...)`, given the formatted text. -/
def wrap (text : String) : Option String → Option String
  | none => none
  | some e => some (text ++ ": " ++ e)

/-- The statement around `ctl.GetCredentials(cfg)`. -/
def getCredentialsStep {σ : Type} (env : Env σ) : Step σ := fun s =>
  match env.GetCredentials s.cfg s.world with
  | (err, w) =>
    (retOf (wrap ("getting credentials for cluster " ++ env.Quote s.cfg.Metadata.Name) err),
      { s with world := w, trace := s.trace ++ [Event.GetCredentials err] })

/-- The statement around `ctl.GetClusterVPC(cfg)`. -/
def getClusterVPCStep {σ : Type} (env : Env σ) : Step σ := fun s =>
  match env.GetClusterVPC s.cfg s.world with
  | (err, w) =>
    (retOf (wrap ("getting VPC configuration for cluster " ++ env.Quote s.cfg.Metadata.Name) err),
      { s with world := w, trace := s.trace ++ [Event.GetClusterVPC err] })

/-- The check handed to `checkEachNodeGroup` before creation: `EnsureAMI`, then
`SetNodeLabels`, then `LoadSSHPublicKey`. -/
def resolveCheck {σ : Type} (env : Env σ) (_i : Nat) (ng : NodeGroup) (s : St σ) :
    Ret × NodeGroup × St σ :=
  match env.EnsureAMI s.cfg.Metadata.Version ng s.world with
  | ((some e, ng1), w1) =>
    (Ret.err e, ng1,
      { s with world := w1,
               trace := s.trace ++ [Event.EnsureAMI s.cfg.Metadata.Version ng.Name (some e)] })
  | ((none, ng1), w1) =>
    let s1 : St σ :=
      { s with world := w1,
               trace := s.trace ++ [Event.EnsureAMI s.cfg.Metadata.Version ng.Name none,
                 Event.log Level.Info ("nodegroup " ++ env.Quote ng1.Name ++ " will use "
                   ++ env.Quote ng1.AMI ++ " [" ++ ng1.AMIFamily ++ "/"
                   ++ s.cfg.Metadata.Version ++ "]")] }
    match env.SetNodeLabels ng1 s.cfg.Metadata w1 with
    | ((some e, ng2), w2) =>
      (Ret.err e, ng2,
        { s1 with world := w2, trace := s1.trace ++ [Event.SetNodeLabels ng1.Name (some e)] })
    | ((none, ng2), w2) =>
      match env.LoadSSHPublicKey s.cfg.Metadata.Name ng2 w2 with
      | ((err, ng3), w3) =>
        (retOf err, ng3,
          { s1 with world := w3,
                    trace := s1.trace ++ [Event.SetNodeLabels ng1.Name none,
                                          Event.LoadSSHPublicKey ng2.Name err] })

/-- The statement `err := checkEachNodeGroup(cfg, func ...)` that resolves every
unit, with its `if err != nil { return err }`. -/
def resolveStep {σ : Type} (env : Env σ) : Step σ :=
  checkEachNodeGroup (resolveCheck env)

/-- The statement around `printer.LogObj`. -/
def logObjStep {σ : Type} (env : Env σ) : Step σ := fun s =>
  match env.LogObj s.cfg s.world with
  | (err, w) => (retOf err, { s with world := w, trace := s.trace ++ [Event.LogObj err] })

/-- The statements `stackManager := ctl.NewStackManager(cfg)` and the check of
`ctl.ValidateClusterForCompatibility(cfg, stackManager)`. -/
def stackManagerStep {σ : Type} (env : Env σ) : Step σ := fun s =>
  match env.ValidateClusterForCompatibility s.cfg (env.NewStackManager s.cfg s.world) with
  | (err, w) =>
    (retOf (wrap "cluster compatibility check failed" err),
      { s with world := w,
               trace := s.trace ++ [Event.NewStackManager, Event.ValidateClusterForCompatibility err] })

/-- The loop `for _, err := range errs { if err != nil { logger.Critical(...) } }`. -/
def logErrs : List (Option String) → List Event
  | [] => []
  | none :: rest => logErrs rest
  | some e :: rest => Event.log Level.Critical (e ++ "\n") :: logErrs rest

/-- The block that calls `stackManager.CreateAllNodeGroups()`. -/
def createStep {σ : Type} (env : Env σ) : Step σ := fun s =>
  match env.CreateAllNodeGroups s.cfg s.world with
  | (errs, w) =>
    let s1 : St σ := { s with world := w, trace := s.trace ++
      [Event.log Level.Info ("will create a CloudFormation stack for each of "
        ++ toString s.cfg.NodeGroups.length ++ " nodegroups in cluster "
        ++ env.Quote s.cfg.Metadata.Name),
       Event.CreateAllNodeGroups (s.cfg.NodeGroups.map NodeGroup.Name) errs] }
    if errs.length > 0 then
      (Ret.err ("failed to create nodegroups for cluster " ++ env.Quote s.cfg.Metadata.Name),
        { s1 with trace := s1.trace ++
          [Event.log Level.Info (toString errs.length ++ " error(s) occurred and nodegroups "
            ++ "haven't been created properly, you may wish to check CloudFormation console"),
           Event.log Level.Info ("to cleanup resources, run 'eksctl delete nodegroup --region="
            ++ s.cfg.Metadata.Region ++ " --cluster=" ++ s.cfg.Metadata.Name
            ++ " --name=<name>' for each of the failed nodegroup")]
          ++ logErrs errs })
    else (Ret.nil, s1)

/-- The first line of the GPU advisory. -/
def gpuLine1 : String :=
  "as you are using a GPU optimized instance type you will need to install NVIDIA Kubernetes device plugin."

/-- The second line of the GPU advisory. -/
def gpuLine2 : String :=
  "\t see the following page for instructions: https://github.com/NVIDIA/k8s-device-plugin"

/-- The check handed to `checkEachNodeGroup` after creation. -/
def postCreationCheck {σ : Type} (env : Env σ) (g : Globals) (_i : Nat) (ng : NodeGroup)
    (s : St σ) : Ret × NodeGroup × St σ :=
  let gpu : List Event :=
    if env.IsGPUInstanceType ng.InstanceType then
      [Event.log Level.Info gpuLine1, Event.log Level.Info gpuLine2]
    else []
  if g.updateAuthConfigMap then
    match env.AddNodeGroup ng s.world with
    | (some e, w1) =>
      (Ret.err e, ng, { s with world := w1, trace := s.trace ++ [Event.AddNodeGroup ng.Name (some e)] })
    | (none, w1) =>
      match env.WaitForNodes ng w1 with
      | (some e, w2) =>
        (Ret.err e, ng,
          { s with world := w2,
                   trace := s.trace ++ [Event.AddNodeGroup ng.Name none,
                                        Event.WaitForNodes ng.Name (some e)] })
      | (none, w2) =>
        (Ret.nil, ng,
          { s with world := w2,
                   trace := s.trace ++ [Event.AddNodeGroup ng.Name none,
                                        Event.WaitForNodes ng.Name none] ++ gpu })
  else (Ret.nil, ng, { s with trace := s.trace ++ gpu })

/-- The block marked `post-creation action`. -/
def postCreationStep {σ : Type} (env : Env σ) (g : Globals) : Step σ := fun s =>
  match env.NewStdClientSet s.cfg s.world with
  | (some e, w) =>
    (Ret.err e, { s with world := w, trace := s.trace ++ [Event.NewStdClientSet (some e)] })
  | (none, w) =>
    match checkEachNodeGroup (postCreationCheck env g)
        { s with world := w, trace := s.trace ++ [Event.NewStdClientSet none] } with
    | (Ret.nil, s1) =>
      (Ret.nil, s1.emit (Event.log Level.Success
        ("created nodegroups in cluster " ++ env.Quote s1.cfg.Metadata.Name)))
    | (r, s1) => (r, s1)

/-- The final statements: `ctl.ValidateExistingNodeGroupsForCompatibility`, whose
error is logged, and `return nil`. -/
def trailingStep {σ : Type} (env : Env σ) : Step σ := fun s =>
  match env.ValidateExistingNodeGroupsForCompatibility s.cfg s.world with
  | (some e, w) =>
    (Ret.nil, { s with world := w, trace := s.trace ++
      [Event.ValidateExistingNodeGroupsForCompatibility (some e),
       Event.log Level.Critical ("failed checking nodegroups%!(EXTRA string=" ++ e ++ ")")] })
  | (none, w) =>
    (Ret.nil, { s with world := w,
                       trace := s.trace ++ [Event.ValidateExistingNodeGroupsForCompatibility none] })

/-- The statements of `doCreateNodeGroups` from the post-creation block on. -/
def afterCreate {σ : Type} (env : Env σ) (g : Globals) : Step σ :=
  seq (postCreationStep env g) (trailingStep env)

/-- The statements of `doCreateNodeGroups` after the units are resolved. -/
def afterResolve {σ : Type} (env : Env σ) (g : Globals) : Step σ :=
  seq (logObjStep env) (seq (stackManagerStep env) (seq (createStep env) (afterCreate env g)))

/-- The statements of `doCreateNodeGroups` from `ctl := eks.New(p, cfg)` up to
`ctl.GetClusterVPC(cfg)`. -/
def connectSteps {σ : Type} (env : Env σ) (g : Globals) : Step σ :=
  seq (providerStep env) (seq (checkAuthStep env) (seq (getCredentialsStep env)
    (seq (checkVersion env g) (getClusterVPCStep env))))

/-- The choice of the configuration source in `doCreateNodeGroups`. -/
def sourceStep {σ : Type} (env : Env σ) (g : Globals) (nameArg : String) : Step σ :=
  if g.clusterConfigFile ≠ "" then configFileBranch env g else flagsBranch env g nameArg

/-- The function `doCreateNodeGroups(p, cfg, nameArg, cmd)`: the state holds `p`
and `cfg`, the environment holds `cmd`. -/
def doCreateNodeGroups {σ : Type} (env : Env σ) (g : Globals) (nameArg : String) : Step σ :=
  seq (registerStep env) (seq (sourceStep env g nameArg) (seq (connectSteps env g)
    (seq (resolveStep env) (afterResolve env g))))

/-- The statements of `doCreateNodeGroups` up to and including the block marked
`post-creation action`: all but the final compatibility check. -/
def upToPostCreation {σ : Type} (env : Env σ) (g : Globals) (nameArg : String) : Step σ :=
  seq (registerStep env) (seq (sourceStep env g nameArg) (seq (connectSteps env g)
    (seq (resolveStep env) (seq (logObjStep env) (seq (stackManagerStep env)
      (seq (createStep env) (postCreationStep env g)))))))

/-! ## The claims in the words of the specification -/

/-- Whether a unit name matches one glob pattern: the pattern compiles and its
matcher accepts the name. -/
def patternMatches {σ : Type} (env : Env σ) (pattern name : String) : Bool :=
  match env.MustCompile pattern with
  | some m => m name
  | none => false

/-- Whether a unit name matches at least one of the comma-separated patterns of
a filter expression. -/
def matchesFilter {σ : Type} (env : Env σ) (filter name : String) : Bool :=
  (strings.Split filter ',').any (fun pattern => patternMatches env pattern name)

/-- An explicit version request that the tool does not support: not "auto",
not empty, not "latest", and not in the list of supported versions. -/
def UnsupportedExplicit {σ : Type} (env : Env σ) (version : String) : Prop :=
  version ≠ "auto" ∧ version ≠ "" ∧ version ≠ "latest" ∧ version ∉ env.SupportedVersions

instance {σ : Type} (env : Env σ) (version : String) :
    Decidable (UnsupportedExplicit env version) := by
  unfold UnsupportedExplicit
  infer_instance

/-- Whether the event is a call of the per-unit resolution: `EnsureAMI`,
`SetNodeLabels` or `LoadSSHPublicKey`. -/
def Event.isResolve : Event → Bool
  | Event.EnsureAMI _ _ _ => true
  | Event.SetNodeLabels _ _ => true
  | Event.LoadSSHPublicKey _ _ => true
  | _ => false

/-- The error of a call of the per-unit resolution that failed. -/
def Event.resolveFailure : Event → Option String
  | Event.EnsureAMI _ _ err => err
  | Event.SetNodeLabels _ err => err
  | Event.LoadSSHPublicKey _ err => err
  | _ => none

/-- Whether the event is the submission of the units to the stack backend. -/
def Event.isCreate : Event → Bool
  | Event.CreateAllNodeGroups _ _ => true
  | _ => false

/-- Whether the event belongs to post-provisioning reconciliation: the client
set it opens with, the registration of a unit with the auth config map, the
wait for its nodes, a line of the GPU advisory, or the closing success line. -/
def Event.isPostCreation : Event → Bool
  | Event.NewStdClientSet _ => true
  | Event.AddNodeGroup _ _ => true
  | Event.WaitForNodes _ _ => true
  | Event.log lvl msg =>
    decide (lvl = Level.Success) ||
      (decide (lvl = Level.Info) && (decide (msg = gpuLine1) || decide (msg = gpuLine2)))
  | _ => false

/-- An event outside resolution, submission and reconciliation. -/
def Event.Quiet (e : Event) : Prop :=
  e.isResolve = false ∧ e.isCreate = false ∧ e.isPostCreation = false

/-- The block only appends to the trace, and every event it appends satisfies `A`. -/
def Emits {σ : Type} (f : Step σ) (A : Event → Prop) : Prop :=
  ∀ s, ∃ l, (f s).2.trace = s.trace ++ l ∧ ∀ e ∈ l, A e

/-- The per-unit check only appends to the trace, and every event it appends
satisfies `A`. -/
def CheckEmits {σ : Type} (check : Nat → NodeGroup → St σ → Ret × NodeGroup × St σ)
    (A : Event → Prop) : Prop :=
  ∀ i ng s, ∃ l, (check i ng s).2.2.trace = s.trace ++ l ∧ ∀ e ∈ l, A e

/-- The run fails fast on resolution: a failed resolution call in its trace is
the last event, no call before it failed or submitted the units, and the result
is the error of that call. -/
def FailsFastOnResolve {σ : Type} (x : Ret × St σ) : Prop :=
  ∀ e ∈ x.2.trace, ∀ msg, e.resolveFailure = some msg →
    x.1 = Ret.err msg ∧
    ∃ pre, x.2.trace = pre ++ [e] ∧ ∀ e1 ∈ pre, e1.resolveFailure = none ∧ e1.isCreate = false

/-- The run stops on creation errors: when the backend returned a non-empty
slice of errors, the result is the aggregate error and the trace holds no
event of post-provisioning reconciliation. -/
def StopsOnCreateErrors {σ : Type} (env : Env σ) (x : Ret × St σ) : Prop :=
  ∀ units errs, Event.CreateAllNodeGroups units errs ∈ x.2.trace → errs ≠ [] →
    x.1 = Ret.err ("failed to create nodegroups for cluster " ++ env.Quote x.2.cfg.Metadata.Name) ∧
    ∀ e ∈ x.2.trace, e.isPostCreation = false

/-- The run proceeds after a creation without errors: when the backend returned
the empty slice of errors, the client set of post-provisioning reconciliation
was asked for. -/
def ProceedsOnNoErrors {σ : Type} (x : Ret × St σ) : Prop :=
  ∀ units, Event.CreateAllNodeGroups units [] ∈ x.2.trace →
    ∃ err, Event.NewStdClientSet err ∈ x.2.trace

/-! ## A concrete environment for evaluation -/

/-- The continuation of a `*` in a pattern: some suffix of the text is accepted. -/
def starMatch (k : List Char → Bool) : List Char → Bool
  | [] => k []
  | c :: cs => k (c :: cs) || starMatch k cs

/-- Matching of a pattern of literal characters, `?` (one character) and `*`
(any run of characters) against a text. -/
def wildcardMatch : List Char → List Char → Bool
  | [], text => text.isEmpty
  | p :: ps, text =>
    if p = '*' then starMatch (wildcardMatch ps) text
    else
      match text with
      | [] => false
      | c :: cs => (p = '?' || p = c) && wildcardMatch ps cs

/-- A glob compiler for patterns of literal characters, `?` and `*`.  It
refuses every pattern that holds a bracket, a brace or a backslash; one of
these, the unterminated character class `[`, is a pattern that
`glob.MustCompile` of the linked library panics on as well. -/
def sampleMustCompile (pattern : String) : Option (String → Bool) :=
  if pattern.toList.any (fun c => c = '[' || c = ']' || c = '\x7b' || c = '\x7d' || c = '\\') then
    none
  else some (fun name => wildcardMatch pattern.toList name.toList)

/-- An environment over a trivial world in which every collaborator succeeds:
versions 1.10 to 1.13 are supported, the control plane runs 1.14, no flag was
changed, creation reports no error. -/
def sampleEnv : Env Unit where
  SupportedVersions := ["1.10", "1.11", "1.12", "1.13"]
  LatestVersion := "1.13"
  Register := fun w => (none, w)
  MustCompile := sampleMustCompile
  Quote := fun s => "\"" ++ s ++ "\""
  LoadConfigFromFile := fun _ cfg w => ((none, cfg), w)
  FlagChanged := fun _ => false
  newNodeGroupChecker := fun _ ng w => ((none, ng), w)
  NodeGroupName := fun a b w => (if a = "" then b else a, w)
  ErrNameFlagAndArg := fun a b => "--name=" ++ a ++ " and argument " ++ b ++ " cannot be used at the same time"
  ErrUnsupportedRegion := fun p => "--region=" ++ p.Region ++ " is not supported"
  New := fun _ _ w => w
  IsSupportedRegion := fun w => (true, w)
  CheckAuth := fun w => (none, w)
  GetCredentials := fun _ w => (none, w)
  ControlPlaneVersion := fun w => ("1.14", w)
  GetClusterVPC := fun _ w => (none, w)
  EnsureAMI := fun _ ng w => ((none, ng), w)
  SetNodeLabels := fun ng _ w => ((none, ng), w)
  LoadSSHPublicKey := fun _ ng w => ((none, ng), w)
  LogObj := fun _ w => (none, w)
  NewStackManager := fun _ w => w
  ValidateClusterForCompatibility := fun _ w => (none, w)
  CreateAllNodeGroups := fun _ w => ([], w)
  NewStdClientSet := fun _ w => (none, w)
  AddNodeGroup := fun _ w => (none, w)
  WaitForNodes := fun _ w => (none, w)
  IsGPUInstanceType := fun t => t = "p3.2xlarge"
  ValidateExistingNodeGroupsForCompatibility := fun _ w => (none, w)

/-- A unit with the given name and default fields. -/
def unit (name : String) : NodeGroup :=
  { Name := name, InstanceType := "m5.large", AMI := "", AMIFamily := "AmazonLinux2",
    AllowSSH := false, SSHPublicKeyPath := "" }

/-- A configuration for cluster `c1` in `us-west-2` with the given version
request and units. -/
def sampleCfg (version : String) (names : List String) : ClusterConfig :=
  { Metadata := { Name := "c1", Region := "us-west-2", Version := version },
    NodeGroups := names.map unit }

/-- The state at the start of a run on the given configuration. -/
def start (cfg : ClusterConfig) : St Unit :=
  { world := (), p := { Region := "us-west-2" }, cfg := cfg, trace := [] }

/-- The sample environment with a stack backend that reports the second of
three units failing and the other two succeeding. -/
def partialFailureEnv : Env Unit :=
  { sampleEnv with
    CreateAllNodeGroups := fun _ w => ([none, some "creating stack for u2 failed", none], w) }

/-- The sample environment with an image resolver that fails for unit u2. -/
def amiFailureEnv : Env Unit :=
  { sampleEnv with
    EnsureAMI := fun _ ng w =>
      (if ng.Name = "u2" then (some "no AMI found for u2", ng) else (none, ng), w) }

/-- The sample environment with a final compatibility check that fails. -/
def trailingFailureEnv : Env Unit :=
  { sampleEnv with
    ValidateExistingNodeGroupsForCompatibility := fun _ w =>
      (some "nodegroup ng-old is not compatible", w) }

/-- The sample environment with a stack backend that returns one outcome per
unit, every one of them nil. -/
def nilOutcomesEnv : Env Unit :=
  { sampleEnv with
    CreateAllNodeGroups := fun cfg w => (cfg.NodeGroups.map (fun _ => none), w) }

/-- The sample environment with a config file that holds the document `doc`, and
with the given flags explicitly set. -/
def docEnv (doc : ClusterConfig) (changed : String → Bool) : Env Unit :=
  { sampleEnv with
    LoadConfigFromFile := fun _ _ w => ((none, doc), w)
    FlagChanged := changed }

/-! ## `filterNodeGroups`: lemmas -/

theorem matchLoop_eq_any (globs : List (String → Bool)) (name : String) :
    matchLoop globs name = globs.any (fun m => m name) := by
  induction globs with
  | nil => rfl
  | cons m rest ih =>
    simp only [matchLoop, List.any_cons, ih]
    cases m name <;> simp

theorem filterLoop_eq_filter (globs : List (String → Bool)) (ngs filtered : List NodeGroup) :
    filterLoop globs ngs filtered
      = filtered ++ ngs.filter (fun ng => matchLoop globs ng.Name) := by
  induction ngs generalizing filtered with
  | nil => simp [filterLoop]
  | cons ng rest ih =>
    by_cases h : matchLoop globs ng.Name = true
    · simp [filterLoop, h, ih]
    · simp [filterLoop, h, ih]

theorem compileGlobs_of_all_compile {σ : Type} (env : Env σ) (patterns : List String)
    (h : ∀ pattern ∈ patterns, (env.MustCompile pattern).isSome = true) :
    ∃ globs, compileGlobs env patterns = some globs ∧
      ∀ name, matchLoop globs name = patterns.any (fun pattern => patternMatches env pattern name) := by
  induction patterns with
  | nil => exact ⟨[], rfl, fun _ => rfl⟩
  | cons pattern rest ih =>
    obtain ⟨globs, hglobs, hmatch⟩ := ih (fun q hq => h q (List.mem_cons_of_mem _ hq))
    have hp := h pattern (List.mem_cons_self _ _)
    cases hm : env.MustCompile pattern with
    | none => simp [hm] at hp
    | some m =>
      refine ⟨m :: globs, by simp [compileGlobs, hm, hglobs], fun name => ?_⟩
      simp only [matchLoop, List.any_cons, patternMatches, hm, hmatch name]
      cases m name <;> simp [patternMatches]

theorem compileGlobs_none_of_mem {σ : Type} (env : Env σ) (patterns : List String)
    (pattern : String) (hmem : pattern ∈ patterns) (hbad : env.MustCompile pattern = none) :
    compileGlobs env patterns = none := by
  induction patterns with
  | nil => cases hmem
  | cons q rest ih =>
    rcases List.mem_cons.mp hmem with rfl | hrest
    · simp [compileGlobs, hbad]
    · cases hq : env.MustCompile q with
      | none => simp [compileGlobs, hq]
      | some m => simp [compileGlobs, hq, ih hrest]

/-- What `filterNodeGroups` computes when every pattern of a non-empty filter
compiles. -/
theorem filterNodeGroups_of_all_compile {σ : Type} (env : Env σ) (g : Globals)
    (cfg : ClusterConfig) (hne : g.nodeGroupFilter ≠ "")
    (hcompile : ∀ pattern ∈ strings.Split g.nodeGroupFilter ',',
      (env.MustCompile pattern).isSome = true) :
    filterNodeGroups env g cfg =
      if (cfg.NodeGroups.filter (fun ng => matchesFilter env g.nodeGroupFilter ng.Name)).length = 0
      then (Ret.err ("No nodegroups match filter specification: " ++ g.nodeGroupFilter), cfg)
      else (Ret.nil, { Metadata := cfg.Metadata,
                       NodeGroups := cfg.NodeGroups.filter
                         (fun ng => matchesFilter env g.nodeGroupFilter ng.Name) }) := by
  obtain ⟨globs, hglobs, hmatch⟩ := compileGlobs_of_all_compile env _ hcompile
  have hfun : (fun ng : NodeGroup => matchLoop globs ng.Name)
      = (fun ng : NodeGroup => matchesFilter env g.nodeGroupFilter ng.Name) := by
    funext ng
    exact hmatch ng.Name
  simp only [filterNodeGroups, hne, if_false, hglobs, filterLoop_eq_filter, List.nil_append, hfun]

/-! ## `filterNodeGroups`: the claims -/

/-- C1, as amended: for every non-empty filter string whose comma-separated
pieces all compile as glob patterns, and every unit list in which some unit
name matches some pattern, `filterNodeGroups` returns nil and leaves in
`cfg.NodeGroups` exactly the units whose name matches at least one pattern,
in their original order, each once; the metadata is untouched. -/
theorem filterNodeGroups_keeps_matching_units {σ : Type} (env : Env σ) (g : Globals)
    (cfg : ClusterConfig) (hne : g.nodeGroupFilter ≠ "")
    (hcompile : ∀ pattern ∈ strings.Split g.nodeGroupFilter ',',
      (env.MustCompile pattern).isSome = true)
    (hsome : ∃ ng ∈ cfg.NodeGroups, matchesFilter env g.nodeGroupFilter ng.Name = true) :
    filterNodeGroups env g cfg =
      (Ret.nil, { Metadata := cfg.Metadata,
                  NodeGroups := cfg.NodeGroups.filter
                    (fun ng => matchesFilter env g.nodeGroupFilter ng.Name) }) := by
  rw [filterNodeGroups_of_all_compile env g cfg hne hcompile]
  obtain ⟨ng, hmem, hng⟩ := hsome
  have hin : ng ∈ cfg.NodeGroups.filter (fun ng => matchesFilter env g.nodeGroupFilter ng.Name) :=
    List.mem_filter.mpr ⟨hmem, hng⟩
  have hlen : (cfg.NodeGroups.filter
      (fun ng => matchesFilter env g.nodeGroupFilter ng.Name)).length ≠ 0 := by
    intro h0
    rw [List.length_eq_zero] at h0
    rw [h0] at hin
    cases hin
  rw [if_neg hlen]

/-- C1, the witness of the claim: units a1, a2, b1 with filter `a*` give a1, a2. -/
theorem filterNodeGroups_keeps_matching_units_witness :
    filterNodeGroups sampleEnv ⟨"cluster.yaml", "a*", false⟩ (sampleCfg "auto" ["a1", "a2", "b1"])
      = (Ret.nil, sampleCfg "auto" ["a1", "a2"]) :=
  filterNodeGroups_keeps_matching_units sampleEnv ⟨"cluster.yaml", "a*", false⟩
    (sampleCfg "auto" ["a1", "a2", "b1"]) (by decide) (by decide) (by decide)

/-- C1 as stated fails: with filter `a*,[` the unit a1 matches the pattern `a*`,
yet `filterNodeGroups` does not return: compiling the second pattern panics. -/
theorem filterNodeGroups_panics_despite_match :
    ("a*,[" : String) ≠ "" ∧
    (∃ ng ∈ (sampleCfg "auto" ["a1"]).NodeGroups, matchesFilter sampleEnv "a*,[" ng.Name = true) ∧
    (filterNodeGroups sampleEnv ⟨"cluster.yaml", "a*,[", false⟩ (sampleCfg "auto" ["a1"])).1
      = Ret.panic ∧
    filterNodeGroups sampleEnv ⟨"cluster.yaml", "a*,[", false⟩ (sampleCfg "auto" ["a1"])
      ≠ (Ret.nil, { Metadata := (sampleCfg "auto" ["a1"]).Metadata,
                    NodeGroups := (sampleCfg "auto" ["a1"]).NodeGroups.filter
                      (fun ng => matchesFilter sampleEnv "a*,[" ng.Name) }) := by
  decide

/-- C2, as amended: for every non-empty filter string, `filterNodeGroups` never
returns nil with an empty unit list; and when every comma-separated piece
compiles as a glob pattern and no unit name matches any of them (the empty
unit list included), it returns the error "No nodegroups match filter
specification: " followed by the filter string, leaving the configuration
as it was. -/
theorem filterNodeGroups_no_match_is_error {σ : Type} (env : Env σ) (g : Globals)
    (cfg : ClusterConfig) (hne : g.nodeGroupFilter ≠ "") :
    ¬ ((filterNodeGroups env g cfg).1 = Ret.nil ∧ (filterNodeGroups env g cfg).2.NodeGroups = []) ∧
    ((∀ pattern ∈ strings.Split g.nodeGroupFilter ',', (env.MustCompile pattern).isSome = true) →
     (∀ ng ∈ cfg.NodeGroups, matchesFilter env g.nodeGroupFilter ng.Name = false) →
      filterNodeGroups env g cfg =
        (Ret.err ("No nodegroups match filter specification: " ++ g.nodeGroupFilter), cfg)) := by
  constructor
  · unfold filterNodeGroups
    rw [if_neg hne]
    cases compileGlobs env (strings.Split g.nodeGroupFilter ',') with
    | none => simp
    | some globs =>
      by_cases h0 : (filterLoop globs cfg.NodeGroups []).length = 0
      · simp [h0]
      · simp only [h0, if_false, true_and]
        intro hnil
        exact h0 (by rw [hnil]; rfl)
  · intro hcompile hnone
    rw [filterNodeGroups_of_all_compile env g cfg hne hcompile]
    have hempty : cfg.NodeGroups.filter
        (fun ng => matchesFilter env g.nodeGroupFilter ng.Name) = [] := by
      rw [List.filter_eq_nil_iff]
      intro ng hmem
      simp [hnone ng hmem]
    rw [hempty]
    rfl

/-- C2, the witness of the claim: units a1, a2, b1 with filter `z*` fail. -/
theorem filterNodeGroups_no_match_is_error_witness :
    filterNodeGroups sampleEnv ⟨"cluster.yaml", "z*", false⟩ (sampleCfg "auto" ["a1", "a2", "b1"])
      = (Ret.err "No nodegroups match filter specification: z*",
          sampleCfg "auto" ["a1", "a2", "b1"]) :=
  (filterNodeGroups_no_match_is_error sampleEnv ⟨"cluster.yaml", "z*", false⟩
    (sampleCfg "auto" ["a1", "a2", "b1"]) (by decide)).2 (by decide) (by decide)

/-- C2 as stated fails: with filter `[` no unit name matches any pattern, yet
`filterNodeGroups` returns no error value: compiling the pattern panics. -/
theorem filterNodeGroups_panics_without_match :
    ("[" : String) ≠ "" ∧
    (∀ ng ∈ (sampleCfg "auto" ["a1", "a2", "b1"]).NodeGroups,
      matchesFilter sampleEnv "[" ng.Name = false) ∧
    (filterNodeGroups sampleEnv ⟨"cluster.yaml", "[", false⟩
      (sampleCfg "auto" ["a1", "a2", "b1"])).1 = Ret.panic ∧
    ¬ ∃ msg, (filterNodeGroups sampleEnv ⟨"cluster.yaml", "[", false⟩
      (sampleCfg "auto" ["a1", "a2", "b1"])).1 = Ret.err msg := by
  refine ⟨by decide, by decide, by decide, ?_⟩
  rintro ⟨msg, hmsg⟩
  have hpanic : (filterNodeGroups sampleEnv ⟨"cluster.yaml", "[", false⟩
      (sampleCfg "auto" ["a1", "a2", "b1"])).1 = Ret.panic := by decide
  rw [hpanic] at hmsg
  cases hmsg

/-- C3: with an empty filter string `filterNodeGroups` returns nil and leaves the
configuration, and so every unit list (the empty one included), as it was. -/
theorem filterNodeGroups_empty_filter_noop {σ : Type} (env : Env σ) (g : Globals)
    (cfg : ClusterConfig) (hempty : g.nodeGroupFilter = "") :
    filterNodeGroups env g cfg = (Ret.nil, cfg) := by
  simp [filterNodeGroups, hempty]

/-- C3 at concrete inputs: three units, and no unit at all. -/
theorem filterNodeGroups_empty_filter_noop_witness :
    filterNodeGroups sampleEnv ⟨"cluster.yaml", "", false⟩ (sampleCfg "auto" ["a1", "a2", "b1"])
      = (Ret.nil, sampleCfg "auto" ["a1", "a2", "b1"]) ∧
    filterNodeGroups sampleEnv ⟨"cluster.yaml", "", false⟩ (sampleCfg "auto" [])
      = (Ret.nil, sampleCfg "auto" []) :=
  ⟨filterNodeGroups_empty_filter_noop sampleEnv ⟨"cluster.yaml", "", false⟩ _ rfl,
   filterNodeGroups_empty_filter_noop sampleEnv ⟨"cluster.yaml", "", false⟩ _ rfl⟩

/-! ## `checkVersion`: lemmas -/

theorem validVersionLoop_eq (version : String) (supported : List String) (valid : Bool) :
    validVersionLoop version supported valid = (valid || decide (version ∈ supported)) := by
  induction supported generalizing valid with
  | nil => simp [validVersionLoop]
  | cons v rest ih =>
    by_cases h : version = v
    · subst h
      simp [validVersionLoop, ih]
    · simp [validVersionLoop, ih, h]

/-- The early return of the `switch`: an error exactly for an unsupported
explicit request, never a panic. -/
theorem versionSwitch_ret {σ : Type} (env : Env σ) (version : String) :
    ((versionSwitch env version).1 = Ret.nil ∧ ¬ UnsupportedExplicit env version) ∨
    ((∃ msg, (versionSwitch env version).1 = Ret.err msg) ∧ UnsupportedExplicit env version) := by
  unfold versionSwitch UnsupportedExplicit
  by_cases h1 : version = "auto"
  · simp [h1]
  by_cases h2 : version = ""
  · simp [h2]
  by_cases h3 : version = "latest"
  · simp [h3]
  by_cases h4 : version ∈ env.SupportedVersions
  · simp [h1, h2, h3, h4, validVersionLoop_eq]
  · simp [h1, h2, h3, h4, validVersionLoop_eq]

/-- The result of `checkVersion` once the `switch` has left `version` in
`meta.Version` and the control plane has answered `v`. -/
theorem checkVersion_of_switch {σ : Type} (env : Env σ) (g : Globals) (s : St σ)
    (version : String) (logs : List Event) (v : String) (w : σ)
    (hswitch : versionSwitch env s.cfg.Metadata.Version = (Ret.nil, version, logs))
    (hcp : env.ControlPlaneVersion s.world = (v, w)) :
    (checkVersion env g s).1 = (if v = "" then Ret.err "unable to get control plane version"
      else Ret.nil) ∧
    (checkVersion env g s).2.cfg.Metadata.Version =
      (if v = "" then version else if version = "auto" then v else version) := by
  unfold checkVersion
  rw [hswitch]
  simp only [St.setVersion, hcp]
  by_cases hv : v = ""
  · simp [hv]
  by_cases ha : version = "auto"
  · simp [hv, ha, St.emit, St.setVersion]
  by_cases hne : version = v
  · subst hne
    simp [hv, ha, St.emit]
  · simp [hv, ha, hne, St.emit]

/-- The result of `checkVersion` when the `switch` returns early. -/
theorem checkVersion_of_switch_err {σ : Type} (env : Env σ) (g : Globals) (s : St σ)
    (msg version : String) (logs : List Event)
    (hswitch : versionSwitch env s.cfg.Metadata.Version = (Ret.err msg, version, logs)) :
    (checkVersion env g s).1 = Ret.err msg ∧
    (checkVersion env g s).2.cfg.Metadata.Version = version := by
  unfold checkVersion
  rw [hswitch]
  simp [St.setVersion]

/-- The `switch` on a request that is not rejected: the version it leaves in
`meta.Version`. -/
theorem versionSwitch_version {σ : Type} (env : Env σ) (version : String) :
    (versionSwitch env version).2.1 =
      if version = "auto" then "auto" else if version = "" then "auto"
      else if version = "latest" then env.LatestVersion else version := by
  unfold versionSwitch
  by_cases h1 : version = "auto"
  · simp [h1]
  by_cases h2 : version = ""
  · simp [h2]
  by_cases h3 : version = "latest"
  · simp [h3]
  by_cases h4 : validVersionLoop version env.SupportedVersions false = true
  · simp [h1, h2, h3, h4]
  · simp [h1, h2, h3, h4]

/-! ## `checkVersion`: the claims -/

/-- C4: `checkVersion` returns an error if and only if the requested version is
an unsupported explicit value or the control plane reports the empty string,
and it never panics.  In particular a supported explicit version that differs
from an available control-plane version gives no error, and an unsupported
explicit value gives an error whatever the control plane reports. -/
theorem checkVersion_aborts_iff {σ : Type} (env : Env σ) (g : Globals) (s : St σ) :
    ((∃ msg, (checkVersion env g s).1 = Ret.err msg) ↔
      (UnsupportedExplicit env s.cfg.Metadata.Version ∨
        (env.ControlPlaneVersion s.world).1 = "")) ∧
    (checkVersion env g s).1 ≠ Ret.panic ∧
    (s.cfg.Metadata.Version ∈ env.SupportedVersions → s.cfg.Metadata.Version ≠ "auto" →
      s.cfg.Metadata.Version ≠ "" → s.cfg.Metadata.Version ≠ "latest" →
      (env.ControlPlaneVersion s.world).1 ≠ "" →
      (env.ControlPlaneVersion s.world).1 ≠ s.cfg.Metadata.Version →
      (checkVersion env g s).1 = Ret.nil) ∧
    (UnsupportedExplicit env s.cfg.Metadata.Version →
      ∃ msg, (checkVersion env g s).1 = Ret.err msg) := by
  rcases hcp : env.ControlPlaneVersion s.world with ⟨v, w⟩
  rcases hsw : versionSwitch env s.cfg.Metadata.Version with ⟨r, version, logs⟩
  rcases versionSwitch_ret env s.cfg.Metadata.Version with ⟨hnil, hsup⟩ | ⟨⟨msg, herr⟩, hunsup⟩
  · rw [hsw] at hnil
    simp only at hnil
    subst hnil
    have hres := (checkVersion_of_switch env g s version logs v w hsw hcp).1
    by_cases hv : v = ""
    · rw [hres]
      simp [hv, hsup]
    · rw [hres]
      simp [hv, hsup]
  · rw [hsw] at herr
    simp only at herr
    subst herr
    have hres := (checkVersion_of_switch_err env g s msg version logs hsw).1
    rw [hres]
    simp [hunsup]
    intro hmem
    exact absurd hmem hunsup.2.2.2

/-- C4 at concrete inputs: the unsupported request 9.99 is an error, the
supported request 1.13 against a control plane at 1.14 is none. -/
theorem checkVersion_aborts_iff_witness :
    (∃ msg, (checkVersion sampleEnv ⟨"", "", false⟩ (start (sampleCfg "9.99" ["a1"]))).1
      = Ret.err msg) ∧
    (checkVersion sampleEnv ⟨"", "", false⟩ (start (sampleCfg "1.13" ["a1"]))).1 = Ret.nil :=
  ⟨(checkVersion_aborts_iff sampleEnv ⟨"", "", false⟩ (start (sampleCfg "9.99" ["a1"]))).2.2.2
      (by decide),
   (checkVersion_aborts_iff sampleEnv ⟨"", "", false⟩ (start (sampleCfg "1.13" ["a1"]))).2.2.1
      (by decide) (by decide) (by decide) (by decide) (by decide) (by decide)⟩

/-- C5: when the requested version is "auto" or empty and the control plane
reports a non-empty version `v`, `checkVersion` returns nil and leaves
`meta.Version` equal to `v`. -/
theorem checkVersion_auto_adopts {σ : Type} (env : Env σ) (g : Globals) (s : St σ)
    (v : String) (w : σ)
    (hreq : s.cfg.Metadata.Version = "auto" ∨ s.cfg.Metadata.Version = "")
    (hcp : env.ControlPlaneVersion s.world = (v, w)) (hv : v ≠ "") :
    (checkVersion env g s).1 = Ret.nil ∧ (checkVersion env g s).2.cfg.Metadata.Version = v := by
  have hsw : versionSwitch env s.cfg.Metadata.Version = (Ret.nil, "auto", []) := by
    rcases hreq with h | h
    · simp [versionSwitch, h]
    · simp [versionSwitch, h]
  have hres := checkVersion_of_switch env g s "auto" [] v w hsw hcp
  simpa [hv] using hres

/-- C5, the witness of the claim: "auto" against a control plane at 1.14 gives
1.14, and so does the empty request. -/
theorem checkVersion_auto_adopts_witness :
    ((checkVersion sampleEnv ⟨"", "", false⟩ (start (sampleCfg "auto" ["a1"]))).1 = Ret.nil ∧
     (checkVersion sampleEnv ⟨"", "", false⟩ (start (sampleCfg "auto" ["a1"]))).2.cfg.Metadata.Version
      = "1.14") ∧
    ((checkVersion sampleEnv ⟨"", "", false⟩ (start (sampleCfg "" ["a1"]))).1 = Ret.nil ∧
     (checkVersion sampleEnv ⟨"", "", false⟩ (start (sampleCfg "" ["a1"]))).2.cfg.Metadata.Version
      = "1.14") :=
  ⟨checkVersion_auto_adopts sampleEnv ⟨"", "", false⟩ (start (sampleCfg "auto" ["a1"])) "1.14" ()
      (Or.inl rfl) rfl (by decide),
   checkVersion_auto_adopts sampleEnv ⟨"", "", false⟩ (start (sampleCfg "" ["a1"])) "1.14" ()
      (Or.inr rfl) rfl (by decide)⟩

/-- C6: when the control plane reports a non-empty version `v`, a request of
"latest" returns nil with `meta.Version` equal to `api.LatestVersion` (a
constant that is a version number, not the word "auto"), a supported
explicit request returns nil with `meta.Version` equal to the request, and
every request other than "auto", the empty string and "latest" leaves
`meta.Version` equal to the request; all this whether or not the value
equals `v`. -/
theorem checkVersion_keeps_requested {σ : Type} (env : Env σ) (g : Globals) (s : St σ)
    (v : String) (w : σ)
    (hcp : env.ControlPlaneVersion s.world = (v, w)) (hv : v ≠ "") :
    (s.cfg.Metadata.Version = "latest" → env.LatestVersion ≠ "auto" →
      (checkVersion env g s).1 = Ret.nil ∧
      (checkVersion env g s).2.cfg.Metadata.Version = env.LatestVersion) ∧
    (s.cfg.Metadata.Version ∈ env.SupportedVersions → s.cfg.Metadata.Version ≠ "auto" →
      s.cfg.Metadata.Version ≠ "" → s.cfg.Metadata.Version ≠ "latest" →
      (checkVersion env g s).1 = Ret.nil ∧
      (checkVersion env g s).2.cfg.Metadata.Version = s.cfg.Metadata.Version) ∧
    (s.cfg.Metadata.Version ≠ "auto" → s.cfg.Metadata.Version ≠ "" →
      s.cfg.Metadata.Version ≠ "latest" →
      (checkVersion env g s).2.cfg.Metadata.Version = s.cfg.Metadata.Version) := by
  rcases hsw : versionSwitch env s.cfg.Metadata.Version with ⟨r, version, logs⟩
  have hversion := versionSwitch_version env s.cfg.Metadata.Version
  rw [hsw] at hversion
  simp only at hversion
  have hexplicit : s.cfg.Metadata.Version ≠ "auto" → s.cfg.Metadata.Version ≠ "" →
      s.cfg.Metadata.Version ≠ "latest" →
      version ≠ "auto" ∧ version = s.cfg.Metadata.Version := by
    intro h1 h2 h3
    rw [if_neg h1, if_neg h2, if_neg h3] at hversion
    exact ⟨by rw [hversion]; exact h1, hversion⟩
  have hlatestcase : s.cfg.Metadata.Version = "latest" → env.LatestVersion ≠ "auto" →
      version ≠ "auto" ∧ version = env.LatestVersion := by
    intro h3 hlatest
    rw [h3] at hversion
    simp only [String.reduceEq, if_false, if_true] at hversion
    exact ⟨by rw [hversion]; exact hlatest, hversion⟩
  rcases versionSwitch_ret env s.cfg.Metadata.Version with ⟨hnil, hsup⟩ | ⟨⟨msg, herr⟩, hunsup⟩
  · rw [hsw] at hnil
    simp only at hnil
    subst hnil
    have hres := checkVersion_of_switch env g s version logs v w hsw hcp
    rw [if_neg hv] at hres
    rw [if_neg hv] at hres
    refine ⟨fun h3 hlatest => ?_, fun _ h1 h2 h3 => ?_, fun h1 h2 h3 => ?_⟩
    · have h := hlatestcase h3 hlatest
      rw [hres.1, hres.2, if_neg h.1, h.2]
      exact ⟨rfl, rfl⟩
    · have h := hexplicit h1 h2 h3
      rw [hres.1, hres.2, if_neg h.1, h.2]
      exact ⟨rfl, rfl⟩
    · have h := hexplicit h1 h2 h3
      rw [hres.2, if_neg h.1, h.2]
  · rw [hsw] at herr
    simp only at herr
    subst herr
    have hres := checkVersion_of_switch_err env g s msg version logs hsw
    refine ⟨fun h3 _ => absurd h3 hunsup.2.2.1, fun hmem _ _ _ => absurd hmem hunsup.2.2.2,
      fun h1 h2 h3 => ?_⟩
    rw [hres.2, (hexplicit h1 h2 h3).2]

/-- C6, the witness of the claim: explicit 1.13 against a control plane at 1.14
keeps 1.13, and "latest" gives the newest supported version 1.13. -/
theorem checkVersion_keeps_requested_witness :
    ((checkVersion sampleEnv ⟨"", "", false⟩ (start (sampleCfg "1.13" ["a1"]))).1 = Ret.nil ∧
     (checkVersion sampleEnv ⟨"", "", false⟩ (start (sampleCfg "1.13" ["a1"]))).2.cfg.Metadata.Version
      = "1.13") ∧
    ((checkVersion sampleEnv ⟨"", "", false⟩ (start (sampleCfg "latest" ["a1"]))).1 = Ret.nil ∧
     (checkVersion sampleEnv ⟨"", "", false⟩ (start (sampleCfg "latest" ["a1"]))).2.cfg.Metadata.Version
      = "1.13") :=
  ⟨(checkVersion_keeps_requested sampleEnv ⟨"", "", false⟩ (start (sampleCfg "1.13" ["a1"]))
      "1.14" () rfl (by decide)).2.1 (by decide) (by decide) (by decide) (by decide),
   (checkVersion_keeps_requested sampleEnv ⟨"", "", false⟩ (start (sampleCfg "latest" ["a1"]))
      "1.14" () rfl (by decide)).1 rfl (by decide)⟩

/-! ## Traces: what each block of `doCreateNodeGroups` can emit -/

theorem append_ne_of_not_prefix (a r t : String) (h : ¬ a.data <+: t.data) : a ++ r ≠ t := by
  intro heq
  apply h
  rw [← heq]
  simp

theorem append_ne_of_not_suffix (a r t : String) (h : ¬ r.data <:+ t.data) : a ++ r ≠ t := by
  intro heq
  apply h
  rw [← heq]
  simp

theorem quiet_info_of_prefix (a r : String) (h1 : ¬ a.data <+: gpuLine1.data)
    (h2 : ¬ a.data <+: gpuLine2.data) : (Event.log Level.Info (a ++ r)).Quiet := by
  simp [Event.Quiet, Event.isResolve, Event.isCreate, Event.isPostCreation,
    append_ne_of_not_prefix a r _ h1, append_ne_of_not_prefix a r _ h2]

theorem quiet_info_of_suffix (a r : String) (h1 : ¬ r.data <:+ gpuLine1.data)
    (h2 : ¬ r.data <:+ gpuLine2.data) : (Event.log Level.Info (a ++ r)).Quiet := by
  simp [Event.Quiet, Event.isResolve, Event.isCreate, Event.isPostCreation,
    append_ne_of_not_suffix a r _ h1, append_ne_of_not_suffix a r _ h2]

theorem quiet_warning (msg : String) : (Event.log Level.Warning msg).Quiet := by
  simp [Event.Quiet, Event.isResolve, Event.isCreate, Event.isPostCreation]

theorem quiet_critical (msg : String) : (Event.log Level.Critical msg).Quiet := by
  simp [Event.Quiet, Event.isResolve, Event.isCreate, Event.isPostCreation]

theorem emits_mono {σ : Type} {f : Step σ} {A B : Event → Prop} (h : Emits f A)
    (hAB : ∀ e, A e → B e) : Emits f B := by
  intro s
  obtain ⟨l, hl, hA⟩ := h s
  exact ⟨l, hl, fun e he => hAB e (hA e he)⟩

theorem emits_seq {σ : Type} {f g : Step σ} {A : Event → Prop} (hf : Emits f A)
    (hg : Emits g A) : Emits (seq f g) A := by
  intro s
  obtain ⟨l1, hl1, hA1⟩ := hf s
  unfold seq
  rcases hfs : f s with ⟨r, s1⟩
  rw [hfs] at hl1
  cases r with
  | nil =>
    obtain ⟨l2, hl2, hA2⟩ := hg s1
    refine ⟨l1 ++ l2, ?_, ?_⟩
    · simp only at hl1 ⊢
      rw [hl2, hl1, List.append_assoc]
    · intro e he
      rcases List.mem_append.mp he with h | h
      · exact hA1 e h
      · exact hA2 e h
  | err msg => exact ⟨l1, hl1, hA1⟩
  | panic => exact ⟨l1, hl1, hA1⟩

theorem eachNodeGroup_emits {σ : Type}
    {check : Nat → NodeGroup → St σ → Ret × NodeGroup × St σ} {A : Event → Prop}
    (h : CheckEmits check A) (i : Nat) (ngs : List NodeGroup) (s : St σ) :
    ∃ l, (eachNodeGroup check i ngs s).2.2.trace = s.trace ++ l ∧ ∀ e ∈ l, A e := by
  induction ngs generalizing i s with
  | nil => exact ⟨[], by simp [eachNodeGroup], by simp⟩
  | cons ng rest ih =>
    obtain ⟨l1, hl1, hA1⟩ := h i ng s
    unfold eachNodeGroup
    rcases hc : check i ng s with ⟨r, ng1, s1⟩
    rw [hc] at hl1
    cases r with
    | nil =>
      obtain ⟨l2, hl2, hA2⟩ := ih (i + 1) s1
      refine ⟨l1 ++ l2, ?_, ?_⟩
      · simp only at hl1 ⊢
        rw [hl2, hl1, List.append_assoc]
      · intro e he
        rcases List.mem_append.mp he with h | h
        · exact hA1 e h
        · exact hA2 e h
    | err msg => exact ⟨l1, hl1, hA1⟩
    | panic => exact ⟨l1, hl1, hA1⟩

theorem emits_checkEachNodeGroup {σ : Type}
    {check : Nat → NodeGroup → St σ → Ret × NodeGroup × St σ} {A : Event → Prop}
    (h : CheckEmits check A) : Emits (checkEachNodeGroup check) A := by
  intro s
  obtain ⟨l, hl, hA⟩ := eachNodeGroup_emits h 0 s.cfg.NodeGroups s
  exact ⟨l, by simpa [checkEachNodeGroup] using hl, hA⟩

theorem emits_registerStep {σ : Type} (env : Env σ) : Emits (registerStep env) Event.Quiet := by
  intro s
  unfold registerStep
  exact ⟨[Event.Register (env.Register s.world).1], rfl,
    by simp [Event.Quiet, Event.isResolve, Event.isCreate, Event.isPostCreation]⟩

theorem checkEmits_configFileCheck {σ : Type} (env : Env σ) :
    CheckEmits (configFileCheck env) Event.Quiet := by
  intro i ng s
  unfold configFileCheck
  exact ⟨[Event.newNodeGroupChecker ng.Name (env.newNodeGroupChecker i ng s.world).1.1], rfl,
    by simp [Event.Quiet, Event.isResolve, Event.isCreate, Event.isPostCreation]⟩

theorem emits_configFileBranch {σ : Type} (env : Env σ) (g : Globals) :
    Emits (configFileBranch env g) Event.Quiet := by
  intro s
  unfold configFileBranch
  rcases env.LoadConfigFromFile g.clusterConfigFile s.cfg s.world with ⟨⟨err, cfg1⟩, w⟩
  have hq : ∀ e ∈ [Event.LoadConfigFromFile g.clusterConfigFile err], e.Quiet := by
    simp [Event.Quiet, Event.isResolve, Event.isCreate, Event.isPostCreation]
  cases err with
  | some e => exact ⟨_, rfl, hq⟩
  | none =>
    simp only
    split_ifs with hname hregion
    · exact ⟨_, rfl, hq⟩
    · exact ⟨_, rfl, hq⟩
    · rcases filterNodeGroups env g cfg1 with ⟨r, cfg2⟩
      cases r with
      | err msg => exact ⟨_, rfl, hq⟩
      | panic => exact ⟨_, rfl, hq⟩
      | nil =>
        simp only
        cases firstChangedFlag env incompatibleFlags with
        | some f => exact ⟨_, rfl, hq⟩
        | none =>
          obtain ⟨l, hl, hA⟩ := emits_checkEachNodeGroup (checkEmits_configFileCheck env)
            { world := w, p := { Region := cfg1.Metadata.Region }, cfg := cfg2,
              trace := s.trace ++ [Event.LoadConfigFromFile g.clusterConfigFile none] }
          refine ⟨Event.LoadConfigFromFile g.clusterConfigFile none :: l, ?_, ?_⟩
          · simpa using hl
          · intro e he
            rcases List.mem_cons.mp he with h | h
            · exact hq e (by simp [h])
            · exact hA e h

theorem checkEmits_flagsCheck {σ : Type} (env : Env σ) (nameArg : String) :
    CheckEmits (flagsCheck env nameArg) Event.Quiet := by
  intro i ng s
  unfold flagsCheck
  split_ifs with hssh
  · exact ⟨[], by simp, by simp⟩
  · rcases env.NodeGroupName ng.Name nameArg s.world with ⟨n1, w1⟩
    simp only
    split_ifs with hn1
    · exact ⟨_, rfl, by simp [Event.Quiet, Event.isResolve, Event.isCreate, Event.isPostCreation]⟩
    · exact ⟨[Event.NodeGroupName ng.Name nameArg n1,
          Event.NodeGroupName ng.Name nameArg (env.NodeGroupName ng.Name nameArg w1).1],
        by simp, by simp [Event.Quiet, Event.isResolve, Event.isCreate, Event.isPostCreation]⟩

theorem emits_flagsBranch {σ : Type} (env : Env σ) (g : Globals) (nameArg : String) :
    Emits (flagsBranch env g nameArg) Event.Quiet := by
  intro s
  unfold flagsBranch
  split_ifs with hname hfilter
  · exact ⟨[], by simp, by simp⟩
  · exact ⟨[], by simp, by simp⟩
  · exact emits_checkEachNodeGroup (checkEmits_flagsCheck env nameArg) s

theorem emits_sourceStep {σ : Type} (env : Env σ) (g : Globals) (nameArg : String) :
    Emits (sourceStep env g nameArg) Event.Quiet := by
  unfold sourceStep
  split_ifs with h
  · exact emits_configFileBranch env g
  · exact emits_flagsBranch env g nameArg

theorem emits_providerStep {σ : Type} (env : Env σ) : Emits (providerStep env) Event.Quiet := by
  intro s
  unfold providerStep
  rcases env.IsSupportedRegion (env.New s.p s.cfg s.world) with ⟨ok, w⟩
  simp only
  split_ifs with hok
  · exact ⟨_, rfl, by simp [Event.Quiet, Event.isResolve, Event.isCreate, Event.isPostCreation]⟩
  · refine ⟨[Event.New, Event.IsSupportedRegion ok,
        Event.log Level.Info ("using region " ++ s.cfg.Metadata.Region)], by simp [St.emit], ?_⟩
    intro e he
    simp only [List.mem_cons, List.mem_singleton, List.not_mem_nil, or_false] at he
    rcases he with rfl | rfl | rfl
    · simp [Event.Quiet, Event.isResolve, Event.isCreate, Event.isPostCreation]
    · simp [Event.Quiet, Event.isResolve, Event.isCreate, Event.isPostCreation]
    · exact quiet_info_of_prefix _ _ (by decide) (by decide)

theorem emits_checkAuthStep {σ : Type} (env : Env σ) : Emits (checkAuthStep env) Event.Quiet := by
  intro s
  unfold checkAuthStep
  exact ⟨[Event.CheckAuth (env.CheckAuth s.world).1], rfl,
    by simp [Event.Quiet, Event.isResolve, Event.isCreate, Event.isPostCreation]⟩

theorem emits_getCredentialsStep {σ : Type} (env : Env σ) :
    Emits (getCredentialsStep env) Event.Quiet := by
  intro s
  unfold getCredentialsStep
  exact ⟨[Event.GetCredentials (env.GetCredentials s.cfg s.world).1], rfl,
    by simp [Event.Quiet, Event.isResolve, Event.isCreate, Event.isPostCreation]⟩

theorem emits_getClusterVPCStep {σ : Type} (env : Env σ) :
    Emits (getClusterVPCStep env) Event.Quiet := by
  intro s
  unfold getClusterVPCStep
  exact ⟨[Event.GetClusterVPC (env.GetClusterVPC s.cfg s.world).1], rfl,
    by simp [Event.Quiet, Event.isResolve, Event.isCreate, Event.isPostCreation]⟩

theorem emits_logObjStep {σ : Type} (env : Env σ) : Emits (logObjStep env) Event.Quiet := by
  intro s
  unfold logObjStep
  exact ⟨[Event.LogObj (env.LogObj s.cfg s.world).1], rfl,
    by simp [Event.Quiet, Event.isResolve, Event.isCreate, Event.isPostCreation]⟩

theorem emits_stackManagerStep {σ : Type} (env : Env σ) :
    Emits (stackManagerStep env) Event.Quiet := by
  intro s
  unfold stackManagerStep
  exact ⟨[Event.NewStackManager, Event.ValidateClusterForCompatibility
      (env.ValidateClusterForCompatibility s.cfg (env.NewStackManager s.cfg s.world)).1], rfl,
    by simp [Event.Quiet, Event.isResolve, Event.isCreate, Event.isPostCreation]⟩

theorem versionSwitch_logs_quiet {σ : Type} (env : Env σ) (version : String) :
    ∀ e ∈ (versionSwitch env version).2.2, e.Quiet := by
  unfold versionSwitch
  split_ifs
  · simp
  · simp
  · intro e he
    simp only [List.mem_singleton] at he
    subst he
    exact quiet_info_of_suffix _ _ (by decide) (by decide)
  · simp
  · simp

theorem emits_checkVersion {σ : Type} (env : Env σ) (g : Globals) :
    Emits (checkVersion env g) Event.Quiet := by
  intro s
  have hlogs := versionSwitch_logs_quiet env s.cfg.Metadata.Version
  unfold checkVersion
  rcases hsw : versionSwitch env s.cfg.Metadata.Version with ⟨r, version, logs⟩
  rw [hsw] at hlogs
  simp only at hlogs
  have hcp : ∀ v, (Event.ControlPlaneVersion v).Quiet := by
    intro v
    simp [Event.Quiet, Event.isResolve, Event.isCreate, Event.isPostCreation]
  cases r with
  | err msg => exact ⟨logs, rfl, hlogs⟩
  | panic => exact ⟨logs, rfl, hlogs⟩
  | nil =>
    simp only [St.setVersion, St.emit, List.append_assoc]
    split_ifs
    all_goals
      refine ⟨_, rfl, List.forall_mem_append.mpr ⟨hlogs, ?_⟩⟩
      intro e he
      simp only [List.singleton_append, List.mem_cons, List.mem_singleton, List.not_mem_nil,
        or_false] at he
      first
        | (subst he; exact hcp _)
        | (rcases he with rfl | rfl
           · exact hcp _
           · first
               | exact quiet_info_of_suffix _ _ (by decide) (by decide)
               | exact quiet_warning _)

theorem emits_connectSteps {σ : Type} (env : Env σ) (g : Globals) :
    Emits (connectSteps env g) Event.Quiet :=
  emits_seq (emits_providerStep env) (emits_seq (emits_checkAuthStep env)
    (emits_seq (emits_getCredentialsStep env)
      (emits_seq (emits_checkVersion env g) (emits_getClusterVPCStep env))))

theorem resolveFailure_of_not_isResolve (e : Event) (h : e.isResolve = false) :
    e.resolveFailure = none := by
  cases e <;> simp_all [Event.isResolve, Event.resolveFailure]

/-- Sequencing after a block that emits only events of a class `A`: a property
of the result that holds whenever the run stops at once on a trace of `A`
events, and that the rest establishes from such a trace, holds of the whole. -/
theorem seq_preserves {σ : Type} {f g : Step σ} {A : Event → Prop} {P : Ret × St σ → Prop}
    (hf : Emits f A)
    (hstop : ∀ r s1, (∀ e ∈ s1.trace, A e) → r ≠ Ret.nil → P (r, s1))
    (hg : ∀ s, (∀ e ∈ s.trace, A e) → P (g s)) :
    ∀ s, (∀ e ∈ s.trace, A e) → P (seq f g s) := by
  intro s hs
  obtain ⟨l, hl, hA⟩ := hf s
  unfold seq
  rcases hfs : f s with ⟨r, s1⟩
  rw [hfs] at hl
  simp only at hl
  have hs1 : ∀ e ∈ s1.trace, A e := by
    intro e he
    rw [hl] at he
    rcases List.mem_append.mp he with h | h
    · exact hs e h
    · exact hA e h
  cases r with
  | nil => exact hg s1 hs1
  | err msg => exact hstop _ s1 hs1 (by simp)
  | panic => exact hstop _ s1 hs1 (by simp)

/-- One unit's resolution: it submits nothing, reconciles nothing, and a failed
call is the last event, the only failed one, and its error the result. -/
theorem resolveCheck_trace {σ : Type} (env : Env σ) (i : Nat) (ng : NodeGroup) (s : St σ) :
    ∃ l, (resolveCheck env i ng s).2.2.trace = s.trace ++ l ∧
      (∀ e ∈ l, e.isCreate = false ∧ e.isPostCreation = false) ∧
      (∀ e ∈ l, ∀ msg, e.resolveFailure = some msg →
        (resolveCheck env i ng s).1 = Ret.err msg ∧
        ∃ pre, l = pre ++ [e] ∧ ∀ e1 ∈ pre, e1.resolveFailure = none) := by
  have hlog : ∀ a : String, (Event.log Level.Info (a ++ "]")).isCreate = false ∧
      (Event.log Level.Info (a ++ "]")).isPostCreation = false := fun a =>
    (quiet_info_of_suffix a "]" (by decide) (by decide)).2
  unfold resolveCheck
  rcases env.EnsureAMI s.cfg.Metadata.Version ng s.world with ⟨⟨err1, ng1⟩, w1⟩
  cases err1 with
  | some e1 =>
    refine ⟨_, rfl, by simp [Event.isCreate, Event.isPostCreation], ?_⟩
    intro e he msg hmsg
    simp only [List.mem_singleton] at he
    subst he
    simp only [Event.resolveFailure, Option.some.injEq] at hmsg
    subst hmsg
    exact ⟨rfl, [], rfl, by simp⟩
  | none =>
    simp only
    rcases env.SetNodeLabels ng1 s.cfg.Metadata w1 with ⟨⟨err2, ng2⟩, w2⟩
    cases err2 with
    | some e2 =>
      refine ⟨_, by simp only [List.append_assoc]; rfl, ?_, ?_⟩
      · intro e he
        simp only [List.cons_append, List.nil_append, List.mem_cons, List.mem_singleton,
          List.not_mem_nil, or_false] at he
        rcases he with rfl | rfl | rfl
        · simp [Event.isCreate, Event.isPostCreation]
        · exact hlog _
        · simp [Event.isCreate, Event.isPostCreation]
      · intro e he msg hmsg
        simp only [List.cons_append, List.nil_append, List.mem_cons, List.mem_singleton,
          List.not_mem_nil, or_false] at he
        rcases he with rfl | rfl | rfl
        · simp [Event.resolveFailure] at hmsg
        · simp [Event.resolveFailure] at hmsg
        · simp only [Event.resolveFailure, Option.some.injEq] at hmsg
          subst hmsg
          exact ⟨rfl, _, rfl, by simp [Event.resolveFailure]⟩
    | none =>
      simp only
      rcases env.LoadSSHPublicKey s.cfg.Metadata.Name ng2 w2 with ⟨⟨err3, ng3⟩, w3⟩
      refine ⟨_, by simp only [List.append_assoc]; rfl, ?_, ?_⟩
      · intro e he
        simp only [List.cons_append, List.nil_append, List.mem_cons, List.mem_singleton,
          List.not_mem_nil, or_false] at he
        rcases he with rfl | rfl | rfl | rfl
        · simp [Event.isCreate, Event.isPostCreation]
        · exact hlog _
        · simp [Event.isCreate, Event.isPostCreation]
        · simp [Event.isCreate, Event.isPostCreation]
      · intro e he msg hmsg
        simp only [List.cons_append, List.nil_append, List.mem_cons, List.mem_singleton,
          List.not_mem_nil, or_false] at he
        rcases he with rfl | rfl | rfl | rfl
        · simp [Event.resolveFailure] at hmsg
        · simp [Event.resolveFailure] at hmsg
        · simp [Event.resolveFailure] at hmsg
        · simp only [Event.resolveFailure] at hmsg
          rw [hmsg]
          exact ⟨rfl, [_, _, _], rfl, by simp [Event.resolveFailure]⟩

/-- The resolution loop: it submits nothing, reconciles nothing, and a failed
call is the last event, the only failed one, and its error the result. -/
theorem eachNodeGroup_resolve_trace {σ : Type} (env : Env σ) (i : Nat) (ngs : List NodeGroup)
    (s : St σ) :
    ∃ l, (eachNodeGroup (resolveCheck env) i ngs s).2.2.trace = s.trace ++ l ∧
      (∀ e ∈ l, e.isCreate = false ∧ e.isPostCreation = false) ∧
      (∀ e ∈ l, ∀ msg, e.resolveFailure = some msg →
        (eachNodeGroup (resolveCheck env) i ngs s).1 = Ret.err msg ∧
        ∃ pre, l = pre ++ [e] ∧ ∀ e1 ∈ pre, e1.resolveFailure = none) := by
  induction ngs generalizing i s with
  | nil => exact ⟨[], by simp [eachNodeGroup], by simp, by simp⟩
  | cons ng rest ih =>
    obtain ⟨l1, hl1, hq1, hf1⟩ := resolveCheck_trace env i ng s
    unfold eachNodeGroup
    rcases hc : resolveCheck env i ng s with ⟨r, ng1, s1⟩
    rw [hc] at hl1 hf1
    simp only at hl1 hf1
    cases r with
    | nil =>
      obtain ⟨l2, hl2, hq2, hf2⟩ := ih (i + 1) s1
      have hclean1 : ∀ e1 ∈ l1, e1.resolveFailure = none := by
        intro e1 h1
        cases hr : e1.resolveFailure with
        | none => rfl
        | some m => exact absurd (hf1 e1 h1 m hr).1 (by simp)
      refine ⟨l1 ++ l2, ?_, ?_, ?_⟩
      · simp only
        rw [hl2, hl1, List.append_assoc]
      · intro e he
        rcases List.mem_append.mp he with h | h
        · exact hq1 e h
        · exact hq2 e h
      · intro e he msg hmsg
        rcases List.mem_append.mp he with h | h
        · rw [hclean1 e h] at hmsg
          cases hmsg
        · obtain ⟨hret, pre, hpre, hclean⟩ := hf2 e h msg hmsg
          refine ⟨hret, l1 ++ pre, by rw [hpre, List.append_assoc], ?_⟩
          intro e1 h1
          rcases List.mem_append.mp h1 with h' | h'
          · exact hclean1 e1 h'
          · exact hclean e1 h'
    | err m => exact ⟨l1, hl1, hq1, hf1⟩
    | panic => exact ⟨l1, hl1, hq1, hf1⟩

theorem resolveStep_trace {σ : Type} (env : Env σ) (s : St σ) :
    ∃ l, (resolveStep env s).2.trace = s.trace ++ l ∧
      (∀ e ∈ l, e.isCreate = false ∧ e.isPostCreation = false) ∧
      (∀ e ∈ l, ∀ msg, e.resolveFailure = some msg →
        (resolveStep env s).1 = Ret.err msg ∧
        ∃ pre, l = pre ++ [e] ∧ ∀ e1 ∈ pre, e1.resolveFailure = none) := by
  obtain ⟨l, hl, hq, hf⟩ := eachNodeGroup_resolve_trace env 0 s.cfg.NodeGroups s
  exact ⟨l, by simpa [resolveStep, checkEachNodeGroup] using hl, hq,
    by simpa [resolveStep, checkEachNodeGroup] using hf⟩

theorem logErrs_critical (errs : List (Option String)) :
    ∀ e ∈ logErrs errs, ∃ msg, e = Event.log Level.Critical msg := by
  induction errs with
  | nil => simp [logErrs]
  | cons err rest ih =>
    cases err with
    | none => simpa [logErrs] using ih
    | some m =>
      intro e he
      simp only [logErrs, List.mem_cons] at he
      rcases he with rfl | h
      · exact ⟨_, rfl⟩
      · exact ih e h

/-- The submission block: it resolves nothing and reconciles nothing, leaves the
configuration alone, and returns the aggregate error exactly when the slice
of errors it received is not empty. -/
theorem createStep_trace {σ : Type} (env : Env σ) (s : St σ) :
    ∃ l, (createStep env s).2.trace = s.trace ++ l ∧
      (∀ e ∈ l, e.isResolve = false ∧ e.isPostCreation = false) ∧
      (createStep env s).2.cfg = s.cfg ∧
      (∀ units errs, Event.CreateAllNodeGroups units errs ∈ l →
        (errs ≠ [] → (createStep env s).1 =
          Ret.err ("failed to create nodegroups for cluster " ++ env.Quote s.cfg.Metadata.Name)) ∧
        (errs = [] → (createStep env s).1 = Ret.nil)) := by
  have hfirst : ∀ r : String,
      (Event.log Level.Info ("will create a CloudFormation stack for each of " ++ r)).isResolve
        = false ∧
      (Event.log Level.Info
        ("will create a CloudFormation stack for each of " ++ r)).isPostCreation = false := by
    intro r
    have h := quiet_info_of_prefix "will create a CloudFormation stack for each of " r
      (by decide) (by decide)
    exact ⟨h.1, h.2.2⟩
  unfold createStep
  rcases env.CreateAllNodeGroups s.cfg s.world with ⟨errs, w⟩
  simp only
  by_cases hlen : errs.length > 0
  · have hne : errs ≠ [] := by
      intro h
      rw [h] at hlen
      simp at hlen
    rw [if_pos hlen]
    refine ⟨_, by simp only [List.append_assoc]; rfl, ?_, rfl, ?_⟩
    · intro e he
      simp only [List.cons_append, List.nil_append, List.mem_cons, List.mem_append,
        List.mem_singleton, List.not_mem_nil, or_false] at he
      rcases he with rfl | rfl | rfl | rfl | h
      · simp only [String.append_assoc]
        exact hfirst _
      · simp [Event.isResolve, Event.isPostCreation]
      · have h := quiet_info_of_suffix (toString errs.length)
          (" error(s) occurred and nodegroups "
            ++ "haven't been created properly, you may wish to check CloudFormation console")
          (by decide) (by decide)
        rw [← String.append_assoc] at h
        exact ⟨h.1, h.2.2⟩
      · have h := quiet_info_of_suffix ("to cleanup resources, run 'eksctl delete nodegroup --region="
            ++ s.cfg.Metadata.Region ++ " --cluster=" ++ s.cfg.Metadata.Name)
          " --name=<name>' for each of the failed nodegroup" (by decide) (by decide)
        exact ⟨h.1, h.2.2⟩
      · obtain ⟨msg, rfl⟩ := logErrs_critical errs e h
        exact ⟨(quiet_critical msg).1, (quiet_critical msg).2.2⟩
    · intro units errs1 hmem
      simp only [List.cons_append, List.nil_append, List.mem_cons, List.mem_append,
        List.mem_singleton, List.not_mem_nil, or_false] at hmem
      rcases hmem with h | h | h | h | h
      · cases h
      · simp only [Event.CreateAllNodeGroups.injEq] at h
        obtain ⟨_, rfl⟩ := h
        exact ⟨fun _ => rfl, fun h0 => absurd h0 hne⟩
      · cases h
      · cases h
      · obtain ⟨msg, hmsg⟩ := logErrs_critical errs _ h
        cases hmsg
  · have hnil : errs = [] := by
      cases errs with
      | nil => rfl
      | cons a rest => simp at hlen
    rw [if_neg hlen]
    refine ⟨_, rfl, ?_, rfl, ?_⟩
    · intro e he
      simp only [List.mem_cons, List.mem_singleton, List.not_mem_nil, or_false] at he
      rcases he with rfl | rfl
      · simp only [String.append_assoc]
        exact hfirst _
      · simp [Event.isResolve, Event.isPostCreation]
    · intro units errs1 hmem
      simp only [List.mem_cons, List.mem_singleton, List.not_mem_nil, or_false] at hmem
      rcases hmem with h | h
      · cases h
      · simp only [Event.CreateAllNodeGroups.injEq] at h
        obtain ⟨_, rfl⟩ := h
        exact ⟨fun h0 => absurd hnil h0, fun _ => rfl⟩

theorem checkEmits_postCreationCheck {σ : Type} (env : Env σ) (g : Globals) :
    CheckEmits (postCreationCheck env g) (fun e => e.isResolve = false ∧ e.isCreate = false) := by
  intro i ng s
  unfold postCreationCheck
  simp only
  have hgpu : ∀ e ∈ (if env.IsGPUInstanceType ng.InstanceType = true then
      [Event.log Level.Info gpuLine1, Event.log Level.Info gpuLine2] else []),
      e.isResolve = false ∧ e.isCreate = false := by
    split_ifs <;> simp [Event.isResolve, Event.isCreate]
  generalize (if env.IsGPUInstanceType ng.InstanceType = true then
    [Event.log Level.Info gpuLine1, Event.log Level.Info gpuLine2] else []) = gpu at hgpu ⊢
  split_ifs with hupdate
  · rcases env.AddNodeGroup ng s.world with ⟨err1, w1⟩
    cases err1 with
    | some e1 => exact ⟨_, rfl, by simp [Event.isResolve, Event.isCreate]⟩
    | none =>
      simp only
      rcases env.WaitForNodes ng w1 with ⟨err2, w2⟩
      cases err2 with
      | some e2 => exact ⟨_, rfl, by simp [Event.isResolve, Event.isCreate]⟩
      | none =>
        refine ⟨_, by simp only [List.append_assoc]; rfl, ?_⟩
        intro e he
        rcases List.mem_append.mp he with h | h
        · revert h
          simp only [List.mem_cons, List.mem_singleton, List.not_mem_nil, or_false]
          rintro (rfl | rfl) <;> simp [Event.isResolve, Event.isCreate]
        · exact hgpu e h
  · exact ⟨_, rfl, hgpu⟩

theorem emits_postCreationStep {σ : Type} (env : Env σ) (g : Globals) :
    Emits (postCreationStep env g) (fun e => e.isResolve = false ∧ e.isCreate = false) := by
  intro s
  unfold postCreationStep
  rcases env.NewStdClientSet s.cfg s.world with ⟨err, w⟩
  cases err with
  | some e => exact ⟨_, rfl, by simp [Event.isResolve, Event.isCreate]⟩
  | none =>
    simp only
    obtain ⟨l, hl, hA⟩ := emits_checkEachNodeGroup (checkEmits_postCreationCheck env g)
      { s with world := w, trace := s.trace ++ [Event.NewStdClientSet none] }
    rcases hc : checkEachNodeGroup (postCreationCheck env g)
      { s with world := w, trace := s.trace ++ [Event.NewStdClientSet none] } with ⟨r, s1⟩
    rw [hc] at hl
    simp only at hl
    have hfirst : ∀ e ∈ Event.NewStdClientSet none :: l, e.isResolve = false ∧ e.isCreate = false := by
      intro e he
      rcases List.mem_cons.mp he with h | h
      · subst h
        simp [Event.isResolve, Event.isCreate]
      · exact hA e h
    cases r with
    | nil =>
      refine ⟨Event.NewStdClientSet none :: l ++ [Event.log Level.Success
        ("created nodegroups in cluster " ++ env.Quote s1.cfg.Metadata.Name)], ?_, ?_⟩
      · simp [St.emit, hl]
      · intro e he
        rcases List.mem_append.mp he with h | h
        · exact hfirst e h
        · simp only [List.mem_singleton] at h
          subst h
          simp [Event.isResolve, Event.isCreate]
    | err m => exact ⟨Event.NewStdClientSet none :: l, by simp [hl], hfirst⟩
    | panic => exact ⟨Event.NewStdClientSet none :: l, by simp [hl], hfirst⟩

theorem emits_trailingStep {σ : Type} (env : Env σ) :
    Emits (trailingStep env) (fun e => e.isResolve = false ∧ e.isCreate = false) := by
  intro s
  unfold trailingStep
  rcases env.ValidateExistingNodeGroupsForCompatibility s.cfg s.world with ⟨err, w⟩
  cases err with
  | some e => exact ⟨_, rfl, by simp [Event.isResolve, Event.isCreate]⟩
  | none => exact ⟨_, rfl, by simp [Event.isResolve, Event.isCreate]⟩

theorem emits_afterCreate {σ : Type} (env : Env σ) (g : Globals) :
    Emits (afterCreate env g) (fun e => e.isResolve = false ∧ e.isCreate = false) :=
  emits_seq (emits_postCreationStep env g) (emits_trailingStep env)

theorem emits_createStep {σ : Type} (env : Env σ) :
    Emits (createStep env) (fun e => e.isResolve = false) := by
  intro s
  obtain ⟨l, hl, hq, _, _⟩ := createStep_trace env s
  exact ⟨l, hl, fun e he => (hq e he).1⟩

theorem emits_afterResolve {σ : Type} (env : Env σ) (g : Globals) :
    Emits (afterResolve env g) (fun e => e.isResolve = false) :=
  emits_seq (emits_mono (emits_logObjStep env) (fun _ h => h.1))
    (emits_seq (emits_mono (emits_stackManagerStep env) (fun _ h => h.1))
      (emits_seq (emits_createStep env) (emits_mono (emits_afterCreate env g) (fun _ h => h.1))))

theorem emits_resolveStep {σ : Type} (env : Env σ) :
    Emits (resolveStep env) (fun e => e.isCreate = false ∧ e.isPostCreation = false) := by
  intro s
  obtain ⟨l, hl, hq, _⟩ := resolveStep_trace env s
  exact ⟨l, hl, hq⟩

/-- From a trace without resolution events, the resolution of the units and all
that follows fail fast. -/
theorem resolve_then_rest {σ : Type} (env : Env σ) (g : Globals) (s : St σ)
    (hs : ∀ e ∈ s.trace, e.Quiet) :
    FailsFastOnResolve (seq (resolveStep env) (afterResolve env g) s) := by
  obtain ⟨l, hl, hq, hf⟩ := resolveStep_trace env s
  have hquiet : ∀ e ∈ s.trace, e.resolveFailure = none := fun e he =>
    resolveFailure_of_not_isResolve e (hs e he).1
  unfold seq
  rcases hr : resolveStep env s with ⟨r, s1⟩
  rw [hr] at hl hf
  simp only at hl hf
  have hstop : FailsFastOnResolve (r, s1) := by
    intro e he msg hmsg
    simp only at he ⊢
    rw [hl] at he
    rcases List.mem_append.mp he with h | h
    · rw [hquiet e h] at hmsg
      cases hmsg
    · obtain ⟨hret, pre, hpre, hclean⟩ := hf e h msg hmsg
      refine ⟨hret, s.trace ++ pre, by rw [hl, hpre, List.append_assoc], ?_⟩
      intro e1 h1
      rcases List.mem_append.mp h1 with h' | h'
      · exact ⟨hquiet e1 h', (hs e1 h').2.1⟩
      · exact ⟨hclean e1 h', (hq e1 (by rw [hpre]; exact List.mem_append_left _ h')).1⟩
  cases r with
  | nil =>
    simp only
    obtain ⟨l2, hl2, hq2⟩ := emits_afterResolve env g s1
    intro e he msg hmsg
    rw [hl2] at he
    rcases List.mem_append.mp he with h | h
    · exact absurd (hstop e h msg hmsg).1 (by simp)
    · rw [resolveFailure_of_not_isResolve e (hq2 e h)] at hmsg
      cases hmsg
  | err m => exact hstop
  | panic => exact hstop

/-- From a trace without submission and reconciliation events, the submission
block and all that follows stop on creation errors. -/
theorem create_then_rest {σ : Type} (env : Env σ) (g : Globals) (s : St σ)
    (hs : ∀ e ∈ s.trace, e.isCreate = false ∧ e.isPostCreation = false) :
    StopsOnCreateErrors env (seq (createStep env) (afterCreate env g) s) := by
  obtain ⟨l, hl, hq, hcfg, hret⟩ := createStep_trace env s
  have hnone : ∀ units errs, Event.CreateAllNodeGroups units errs ∉ s.trace := by
    intro units errs hmem
    have h := (hs _ hmem).1
    simp [Event.isCreate] at h
  unfold seq
  rcases hc : createStep env s with ⟨r, s1⟩
  rw [hc] at hl hcfg hret
  simp only at hl hcfg hret
  have hstop : StopsOnCreateErrors env (r, s1) := by
    intro units errs hmem hne
    simp only at hmem ⊢
    rw [hl] at hmem
    rcases List.mem_append.mp hmem with h | h
    · exact absurd h (hnone units errs)
    · refine ⟨by rw [hcfg]; exact (hret units errs h).1 hne, ?_⟩
      intro e he
      rw [hl] at he
      rcases List.mem_append.mp he with h' | h'
      · exact (hs e h').2
      · exact (hq e h').2
  cases r with
  | nil =>
    simp only
    obtain ⟨l2, hl2, hq2⟩ := emits_afterCreate env g s1
    intro units errs hmem hne
    rw [hl2] at hmem
    rcases List.mem_append.mp hmem with h | h
    · exact absurd (hstop units errs h hne).1 (by simp)
    · have h' := (hq2 _ h).2
      simp [Event.isCreate] at h'
  | err m => exact hstop
  | panic => exact hstop

/-- Every run of `doCreateNodeGroups` from an empty trace stops on creation
errors. -/
theorem doCreateNodeGroups_stopsOnCreateErrors {σ : Type} (env : Env σ) (g : Globals)
    (nameArg : String) (s : St σ) (hstart : s.trace = []) :
    StopsOnCreateErrors env (doCreateNodeGroups env g nameArg s) := by
  have hmid : ∀ e : Event, e.Quiet → e.isCreate = false ∧ e.isPostCreation = false :=
    fun _ h => h.2
  have hstop : ∀ (r : Ret) (s1 : St σ),
      (∀ e ∈ s1.trace, e.isCreate = false ∧ e.isPostCreation = false) → r ≠ Ret.nil →
      StopsOnCreateErrors env (r, s1) := by
    intro r s1 hs1 _ units errs hmem
    have h := (hs1 _ hmem).1
    simp [Event.isCreate] at h
  exact seq_preserves (emits_mono (emits_registerStep env) hmid) hstop
    (seq_preserves (emits_mono (emits_sourceStep env g nameArg) hmid) hstop
      (seq_preserves (emits_mono (emits_connectSteps env g) hmid) hstop
        (seq_preserves (emits_resolveStep env) hstop
          (seq_preserves (emits_mono (emits_logObjStep env) hmid) hstop
            (seq_preserves (emits_mono (emits_stackManagerStep env) hmid) hstop
              (create_then_rest env g)))))) s (by simp [hstart])

/-- Every run of `doCreateNodeGroups` from an empty trace fails fast on
resolution. -/
theorem doCreateNodeGroups_failsFastOnResolve {σ : Type} (env : Env σ) (g : Globals)
    (nameArg : String) (s : St σ) (hstart : s.trace = []) :
    FailsFastOnResolve (doCreateNodeGroups env g nameArg s) := by
  have hstop : ∀ (r : Ret) (s1 : St σ), (∀ e ∈ s1.trace, e.Quiet) → r ≠ Ret.nil →
      FailsFastOnResolve (r, s1) := by
    intro r s1 hs1 _ e he msg hmsg
    rw [resolveFailure_of_not_isResolve e (hs1 e he).1] at hmsg
    cases hmsg
  exact seq_preserves (emits_registerStep env) hstop
    (seq_preserves (emits_sourceStep env g nameArg) hstop
      (seq_preserves (emits_connectSteps env g) hstop (resolve_then_rest env g)))
    s (by simp [hstart])

/-! ## `doCreateNodeGroups`: the claims -/

/-- C7, as amended: in every run of `doCreateNodeGroups`, when the stack backend
(`CreateAllNodeGroups`) returns a non-empty slice of errors, as it does when
it reports one unit failing and others succeeding, the command returns the
failure "failed to create nodegroups for cluster ..." and post-provisioning
reconciliation (client set, registration with the auth config map, wait for
nodes, GPU advisory, success line) is executed for no unit. -/
theorem doCreateNodeGroups_creation_errors_stop {σ : Type} (env : Env σ) (g : Globals)
    (nameArg : String) (s : St σ) (units : List String) (errs : List (Option String))
    (hstart : s.trace = [])
    (hmem : Event.CreateAllNodeGroups units errs ∈ (doCreateNodeGroups env g nameArg s).2.trace)
    (hne : errs ≠ []) :
    (doCreateNodeGroups env g nameArg s).1 =
      Ret.err ("failed to create nodegroups for cluster "
        ++ env.Quote (doCreateNodeGroups env g nameArg s).2.cfg.Metadata.Name) ∧
    ∀ e ∈ (doCreateNodeGroups env g nameArg s).2.trace, e.isPostCreation = false :=
  doCreateNodeGroups_stopsOnCreateErrors env g nameArg s hstart units errs hmem hne

/-- C8: in every run of `doCreateNodeGroups`, when a call of the per-unit
resolution (`EnsureAMI`, `SetNodeLabels` or `LoadSSHPublicKey`) fails, the
command returns that error, the failed call is the last event of the run
(no later step or unit is resolved), no resolution call before it failed,
and `CreateAllNodeGroups` is never invoked. -/
theorem doCreateNodeGroups_resolution_failure_stops {σ : Type} (env : Env σ) (g : Globals)
    (nameArg : String) (s : St σ) (e : Event) (msg : String)
    (hstart : s.trace = [])
    (hmem : e ∈ (doCreateNodeGroups env g nameArg s).2.trace)
    (hfail : e.resolveFailure = some msg) :
    (doCreateNodeGroups env g nameArg s).1 = Ret.err msg ∧
    ∃ pre, (doCreateNodeGroups env g nameArg s).2.trace = pre ++ [e] ∧
      ∀ e1 ∈ pre, e1.resolveFailure = none ∧ e1.isCreate = false :=
  doCreateNodeGroups_failsFastOnResolve env g nameArg s hstart e hmem msg hfail

/-- C7, the witness of the claim: three units, the backend reports the second
failing: the command fails and nothing is reconciled. -/
theorem doCreateNodeGroups_creation_errors_stop_witness :
    (doCreateNodeGroups partialFailureEnv ⟨"", "", true⟩ ""
        (start (sampleCfg "auto" ["u1", "u2", "u3"]))).1
      = Ret.err "failed to create nodegroups for cluster \"c1\"" ∧
    ∀ e ∈ (doCreateNodeGroups partialFailureEnv ⟨"", "", true⟩ ""
        (start (sampleCfg "auto" ["u1", "u2", "u3"]))).2.trace, e.isPostCreation = false :=
  doCreateNodeGroups_creation_errors_stop partialFailureEnv ⟨"", "", true⟩ ""
    (start (sampleCfg "auto" ["u1", "u2", "u3"])) ["u1", "u2", "u3"]
    [none, some "creating stack for u2 failed", none] rfl (by decide) (by decide)

/-- C7 as stated fails: three units are submitted, the backend reports u2 failing
and u1, u3 succeeding, registration is opted in; the command fails, and the
trace holds no reconciliation event at all, none for u1 and u3 either. -/
theorem doCreateNodeGroups_partial_failure_reconciles_nothing :
    Event.CreateAllNodeGroups ["u1", "u2", "u3"] [none, some "creating stack for u2 failed", none]
      ∈ (doCreateNodeGroups partialFailureEnv ⟨"", "", true⟩ ""
          (start (sampleCfg "auto" ["u1", "u2", "u3"]))).2.trace ∧
    (doCreateNodeGroups partialFailureEnv ⟨"", "", true⟩ ""
        (start (sampleCfg "auto" ["u1", "u2", "u3"]))).1
      = Ret.err "failed to create nodegroups for cluster \"c1\"" ∧
    (doCreateNodeGroups partialFailureEnv ⟨"", "", true⟩ ""
        (start (sampleCfg "auto" ["u1", "u2", "u3"]))).2.trace.filter Event.isPostCreation = [] ∧
    Event.AddNodeGroup "u1" none ∉ (doCreateNodeGroups partialFailureEnv ⟨"", "", true⟩ ""
        (start (sampleCfg "auto" ["u1", "u2", "u3"]))).2.trace ∧
    Event.WaitForNodes "u3" none ∉ (doCreateNodeGroups partialFailureEnv ⟨"", "", true⟩ ""
        (start (sampleCfg "auto" ["u1", "u2", "u3"]))).2.trace := by
  decide

/-- C8, the witness of the claim: three units, the image resolution of the
second fails: the command returns that error, the failed call ends the run,
and nothing is submitted. -/
theorem doCreateNodeGroups_resolution_failure_stops_witness :
    (doCreateNodeGroups amiFailureEnv ⟨"", "", false⟩ ""
        (start (sampleCfg "auto" ["u1", "u2", "u3"]))).1 = Ret.err "no AMI found for u2" ∧
    ∃ pre, (doCreateNodeGroups amiFailureEnv ⟨"", "", false⟩ ""
        (start (sampleCfg "auto" ["u1", "u2", "u3"]))).2.trace
          = pre ++ [Event.EnsureAMI "1.14" "u2" (some "no AMI found for u2")] ∧
      ∀ e1 ∈ pre, e1.resolveFailure = none ∧ e1.isCreate = false :=
  doCreateNodeGroups_resolution_failure_stops amiFailureEnv ⟨"", "", false⟩ ""
    (start (sampleCfg "auto" ["u1", "u2", "u3"]))
    (Event.EnsureAMI "1.14" "u2" (some "no AMI found for u2")) "no AMI found for u2"
    rfl (by decide) rfl

theorem firstChangedFlag_eq_find {σ : Type} (env : Env σ) (flags : List String) :
    firstChangedFlag env flags = flags.find? (fun f => env.FlagChanged f) := by
  induction flags with
  | nil => rfl
  | cons f rest ih =>
    by_cases h : env.FlagChanged f = true
    · simp [firstChangedFlag, List.find?, h]
    · simp [firstChangedFlag, List.find?, h, ih]

theorem firstChangedFlag_isSome {σ : Type} (env : Env σ) (flags : List String)
    (h : ∃ f ∈ flags, env.FlagChanged f = true) :
    ∃ f, firstChangedFlag env flags = some f := by
  obtain ⟨f, hmem, hf⟩ := h
  rw [firstChangedFlag_eq_find]
  cases hfind : flags.find? (fun f => env.FlagChanged f) with
  | some f1 => exact ⟨f1, rfl⟩
  | none =>
    rw [List.find?_eq_none] at hfind
    exact absurd hf (by simpa using hfind f hmem)

/-- The run with a document path, once `api.Register` has succeeded: the config
file branch, then the rest. -/
theorem doCreateNodeGroups_of_registered {σ : Type} (env : Env σ) (g : Globals)
    (nameArg : String) (s : St σ) (w1 : σ)
    (hfile : g.clusterConfigFile ≠ "")
    (hreg : env.Register s.world = (none, w1)) :
    doCreateNodeGroups env g nameArg s =
      match configFileBranch env g
          { s with world := w1, trace := s.trace ++ [Event.Register none] } with
      | (Ret.nil, s1) =>
        seq (connectSteps env g) (seq (resolveStep env) (afterResolve env g)) s1
      | (r, s1) => (r, s1) := by
  simp only [doCreateNodeGroups, seq, registerStep, hreg, retOf, sourceStep, hfile, ne_eq,
    not_false_eq_true, if_true]

/-- C9: with a document path set, when `api.Register` succeeds and the document
loads with an empty metadata name or an empty metadata region,
`doCreateNodeGroups` returns "metadata.name must be set" (name empty) or
"metadata.region must be set" (name set, region empty); the configuration is
the loaded one, unfiltered, the provider region is untouched, and the only
calls made are `api.Register` and `eks.LoadConfigFromFile`. -/
theorem doCreateNodeGroups_missing_name_or_region {σ : Type} (env : Env σ) (g : Globals)
    (nameArg : String) (s : St σ) (cfg1 : ClusterConfig) (w1 w2 : σ)
    (hfile : g.clusterConfigFile ≠ "")
    (hreg : env.Register s.world = (none, w1))
    (hload : env.LoadConfigFromFile g.clusterConfigFile s.cfg w1 = ((none, cfg1), w2))
    (hmissing : cfg1.Metadata.Name = "" ∨ cfg1.Metadata.Region = "") :
    doCreateNodeGroups env g nameArg s =
      (Ret.err (if cfg1.Metadata.Name = "" then "metadata.name must be set"
          else "metadata.region must be set"),
        { world := w2, p := s.p, cfg := cfg1,
          trace := s.trace ++ [Event.Register none,
                               Event.LoadConfigFromFile g.clusterConfigFile none] }) := by
  rw [doCreateNodeGroups_of_registered env g nameArg s w1 hfile hreg]
  simp only [configFileBranch, hload]
  by_cases hname : cfg1.Metadata.Name = ""
  · simp [hname]
  · have hregion : cfg1.Metadata.Region = "" := by
      rcases hmissing with h | h
      · exact absurd h hname
      · exact h
    simp [hname, hregion]

/-- C9 at a concrete input: the document has no metadata name, and the filter
holds a pattern that does not even compile; the command returns the
validation error after two calls. -/
theorem doCreateNodeGroups_missing_name_or_region_witness :
    doCreateNodeGroups
        (docEnv { Metadata := { Name := "", Region := "us-west-2", Version := "auto" },
                  NodeGroups := [unit "u1"] } (fun _ => false))
        ⟨"cluster.yaml", "[", false⟩ "" (start (sampleCfg "auto" []))
      = (Ret.err "metadata.name must be set",
          { world := (), p := { Region := "us-west-2" },
            cfg := { Metadata := { Name := "", Region := "us-west-2", Version := "auto" },
                     NodeGroups := [unit "u1"] },
            trace := [Event.Register none, Event.LoadConfigFromFile "cluster.yaml" none] }) :=
  doCreateNodeGroups_missing_name_or_region
    (docEnv { Metadata := { Name := "", Region := "us-west-2", Version := "auto" },
              NodeGroups := [unit "u1"] } (fun _ => false))
    ⟨"cluster.yaml", "[", false⟩ "" (start (sampleCfg "auto" [])) _ () () (by decide) rfl rfl
    (Or.inl rfl)

/-- C10, as amended: with a document path set, when `api.Register` succeeds, the
document loads and one of the 22 incompatible flags was explicitly set,
`doCreateNodeGroups` does not return nil and makes no call after the load, so
no unit is checked, resolved or submitted; and when the loaded metadata has a
name and a region and `filterNodeGroups` returns nil, the error is the one
that names the first set flag in the order of the list. -/
theorem doCreateNodeGroups_incompatible_flag {σ : Type} (env : Env σ) (g : Globals)
    (nameArg : String) (s : St σ) (cfg1 : ClusterConfig) (w1 w2 : σ)
    (hfile : g.clusterConfigFile ≠ "")
    (hreg : env.Register s.world = (none, w1))
    (hload : env.LoadConfigFromFile g.clusterConfigFile s.cfg w1 = ((none, cfg1), w2))
    (hflag : ∃ f ∈ incompatibleFlags, env.FlagChanged f = true) :
    (doCreateNodeGroups env g nameArg s).1 ≠ Ret.nil ∧
    (doCreateNodeGroups env g nameArg s).2.trace =
      s.trace ++ [Event.Register none, Event.LoadConfigFromFile g.clusterConfigFile none] ∧
    (cfg1.Metadata.Name ≠ "" → cfg1.Metadata.Region ≠ "" →
      (filterNodeGroups env g cfg1).1 = Ret.nil →
      ∃ f, incompatibleFlags.find? (fun x => env.FlagChanged x) = some f ∧
        (doCreateNodeGroups env g nameArg s).1 =
          Ret.err ("cannot use --" ++ f ++ " when --config-file/-f is set")) := by
  obtain ⟨f, hf⟩ := firstChangedFlag_isSome env incompatibleFlags hflag
  have hfind : incompatibleFlags.find? (fun x => env.FlagChanged x) = some f := by
    rw [← firstChangedFlag_eq_find, hf]
  rw [doCreateNodeGroups_of_registered env g nameArg s w1 hfile hreg]
  simp only [configFileBranch, hload]
  by_cases hname : cfg1.Metadata.Name = ""
  · simp [hname]
  by_cases hregion : cfg1.Metadata.Region = ""
  · simp [hname, hregion]
  rcases hfilter : filterNodeGroups env g cfg1 with ⟨r, cfg2⟩
  cases r with
  | nil => simp [hname, hregion, hf, hfind]
  | err msg => simp [hname, hregion]
  | panic => simp [hname, hregion]

/-- C10, at a concrete input: the document names cluster c1 in us-west-2 with
units a1 and b1, the filter keeps a1, and the flags `nodes` and `ssh-access`
were set: the error names `nodes`, the first of the two in the list. -/
theorem doCreateNodeGroups_incompatible_flag_witness :
    (doCreateNodeGroups (docEnv (sampleCfg "auto" ["a1", "b1"])
        (fun f => f = "ssh-access" || f = "nodes"))
        ⟨"cluster.yaml", "a*", false⟩ "" (start (sampleCfg "auto" []))).1
      = Ret.err "cannot use --nodes when --config-file/-f is set" ∧
    (doCreateNodeGroups (docEnv (sampleCfg "auto" ["a1", "b1"])
        (fun f => f = "ssh-access" || f = "nodes"))
        ⟨"cluster.yaml", "a*", false⟩ "" (start (sampleCfg "auto" []))).2.trace
      = [Event.Register none, Event.LoadConfigFromFile "cluster.yaml" none] := by
  have h := doCreateNodeGroups_incompatible_flag
    (docEnv (sampleCfg "auto" ["a1", "b1"]) (fun f => f = "ssh-access" || f = "nodes"))
    ⟨"cluster.yaml", "a*", false⟩ "" (start (sampleCfg "auto" [])) (sampleCfg "auto" ["a1", "b1"])
    () () (by decide) rfl rfl ⟨"nodes", by decide, by decide⟩
  exact ⟨by decide, h.2.1⟩

/-- C10 as stated fails: the document loads, the flag `ssh-access` was set, but
the loaded metadata has no name: the command fails with "metadata.name must
be set", an error that does not name the flag. -/
theorem doCreateNodeGroups_flag_set_but_name_error :
    "ssh-access" ∈ incompatibleFlags ∧
    (docEnv { Metadata := { Name := "", Region := "us-west-2", Version := "auto" },
              NodeGroups := [unit "u1"] } (fun f => f = "ssh-access")).FlagChanged "ssh-access"
      = true ∧
    (doCreateNodeGroups
        (docEnv { Metadata := { Name := "", Region := "us-west-2", Version := "auto" },
                  NodeGroups := [unit "u1"] } (fun f => f = "ssh-access"))
        ⟨"cluster.yaml", "", false⟩ "" (start (sampleCfg "auto" []))).1
      = Ret.err "metadata.name must be set" ∧
    (doCreateNodeGroups
        (docEnv { Metadata := { Name := "", Region := "us-west-2", Version := "auto" },
                  NodeGroups := [unit "u1"] } (fun f => f = "ssh-access"))
        ⟨"cluster.yaml", "", false⟩ "" (start (sampleCfg "auto" []))).1
      ≠ Ret.err "cannot use --ssh-access when --config-file/-f is set" := by
  decide

/-! ## The final compatibility check -/

theorem seq_assoc {σ : Type} (f g h : Step σ) : seq (seq f g) h = seq f (seq g h) := by
  funext s
  unfold seq
  rcases f s with ⟨r, s1⟩
  cases r <;> rfl

theorem doCreateNodeGroups_eq_seq_trailing {σ : Type} (env : Env σ) (g : Globals)
    (nameArg : String) :
    doCreateNodeGroups env g nameArg = seq (upToPostCreation env g nameArg) (trailingStep env) := by
  simp only [doCreateNodeGroups, upToPostCreation, afterResolve, afterCreate, seq_assoc]

/-- The final check returns nil whatever the validation answers, leaves the
configuration alone, and records the call first. -/
theorem trailingStep_nil {σ : Type} (env : Env σ) (s : St σ) :
    (trailingStep env s).1 = Ret.nil ∧ (trailingStep env s).2.cfg = s.cfg ∧
    ∃ rest, (trailingStep env s).2.trace = s.trace ++
      Event.ValidateExistingNodeGroupsForCompatibility
        (env.ValidateExistingNodeGroupsForCompatibility s.cfg s.world).1 :: rest := by
  unfold trailingStep
  rcases env.ValidateExistingNodeGroupsForCompatibility s.cfg s.world with ⟨err, w⟩
  cases err with
  | some e => exact ⟨rfl, rfl, _, rfl⟩
  | none => exact ⟨rfl, rfl, _, rfl⟩

/-- C11: whenever every statement of `doCreateNodeGroups` up to and including the
post-creation block has fallen through (no error, no panic), the command
calls `ValidateExistingNodeGroupsForCompatibility` and returns nil whatever
that call returns; the configuration is the one the earlier phases left. -/
theorem doCreateNodeGroups_trailing_check_advisory {σ : Type} (env : Env σ) (g : Globals)
    (nameArg : String) (s s1 : St σ)
    (hpre : upToPostCreation env g nameArg s = (Ret.nil, s1)) :
    (doCreateNodeGroups env g nameArg s).1 = Ret.nil ∧
    (doCreateNodeGroups env g nameArg s).2.cfg = s1.cfg ∧
    ∃ rest, (doCreateNodeGroups env g nameArg s).2.trace = s1.trace ++
      Event.ValidateExistingNodeGroupsForCompatibility
        (env.ValidateExistingNodeGroupsForCompatibility s1.cfg s1.world).1 :: rest := by
  have hrun : doCreateNodeGroups env g nameArg s = trailingStep env s1 := by
    rw [doCreateNodeGroups_eq_seq_trailing]
    simp only [seq, hpre]
  rw [hrun]
  exact trailingStep_nil env s1

/-- C11 at concrete inputs: one unit, every phase succeeds; the command returns
nil when the final check fails, and when it passes. -/
theorem doCreateNodeGroups_trailing_check_advisory_witness :
    ((doCreateNodeGroups trailingFailureEnv ⟨"", "", true⟩ ""
        (start (sampleCfg "auto" ["u1"]))).1 = Ret.nil ∧
     Event.ValidateExistingNodeGroupsForCompatibility (some "nodegroup ng-old is not compatible")
       ∈ (doCreateNodeGroups trailingFailureEnv ⟨"", "", true⟩ ""
          (start (sampleCfg "auto" ["u1"]))).2.trace) ∧
    ((doCreateNodeGroups sampleEnv ⟨"", "", true⟩ ""
        (start (sampleCfg "auto" ["u1"]))).1 = Ret.nil ∧
     Event.ValidateExistingNodeGroupsForCompatibility none
       ∈ (doCreateNodeGroups sampleEnv ⟨"", "", true⟩ ""
          (start (sampleCfg "auto" ["u1"]))).2.trace) :=
  ⟨⟨(doCreateNodeGroups_trailing_check_advisory trailingFailureEnv ⟨"", "", true⟩ ""
      (start (sampleCfg "auto" ["u1"]))
      (upToPostCreation trailingFailureEnv ⟨"", "", true⟩ "" (start (sampleCfg "auto" ["u1"]))).2
      (Prod.ext (by decide) rfl)).1, by decide⟩,
   ⟨(doCreateNodeGroups_trailing_check_advisory sampleEnv ⟨"", "", true⟩ ""
      (start (sampleCfg "auto" ["u1"]))
      (upToPostCreation sampleEnv ⟨"", "", true⟩ "" (start (sampleCfg "auto" ["u1"]))).2
      (Prod.ext (by decide) rfl)).1, by decide⟩⟩

/-! ## The flag source -/

/-- C12: with no document path, when the cluster name is empty, or it is not
and the nodegroup filter is not empty, `doCreateNodeGroups` does not return
nil, leaves the configuration as it was and makes no call but `api.Register`,
so no unit is checked, resolved or submitted and neither the backend nor the
control plane is called; and once `api.Register` has returned nil the error
is "--cluster must be set" (name empty) or the one that refuses `--only`
without a config file (name set, filter set). -/
theorem doCreateNodeGroups_flag_source_validation {σ : Type} (env : Env σ) (g : Globals)
    (nameArg : String) (s : St σ)
    (hfile : g.clusterConfigFile = "")
    (hbad : s.cfg.Metadata.Name = "" ∨
      (s.cfg.Metadata.Name ≠ "" ∧ g.nodeGroupFilter ≠ "")) :
    ((doCreateNodeGroups env g nameArg s).1 ≠ Ret.nil ∧
     (doCreateNodeGroups env g nameArg s).2.cfg = s.cfg ∧
     (doCreateNodeGroups env g nameArg s).2.trace =
        s.trace ++ [Event.Register (env.Register s.world).1]) ∧
    ((env.Register s.world).1 = none →
      (doCreateNodeGroups env g nameArg s).1 =
        Ret.err (if s.cfg.Metadata.Name = "" then "--cluster must be set"
          else "cannot use --only unless a config file is specified via --config-file/-f")) := by
  rcases hreg : env.Register s.world with ⟨err, w1⟩
  cases err with
  | some e =>
    simp [doCreateNodeGroups, seq, registerStep, hreg, retOf]
  | none =>
    rcases hbad with hname | ⟨hname, hfilter⟩
    · simp [doCreateNodeGroups, seq, registerStep, hreg, retOf, sourceStep, hfile, flagsBranch,
        hname]
    · simp [doCreateNodeGroups, seq, registerStep, hreg, retOf, sourceStep, hfile, flagsBranch,
        hname, hfilter]

/-- C12 at concrete inputs: no cluster name; and a cluster name with `--only`. -/
theorem doCreateNodeGroups_flag_source_validation_witness :
    (doCreateNodeGroups sampleEnv ⟨"", "", true⟩ ""
        (start { Metadata := { Name := "", Region := "us-west-2", Version := "auto" },
                 NodeGroups := [unit "u1"] })).1 = Ret.err "--cluster must be set" ∧
    (doCreateNodeGroups sampleEnv ⟨"", "a*", true⟩ "" (start (sampleCfg "auto" ["u1"]))).1
      = Ret.err "cannot use --only unless a config file is specified via --config-file/-f" ∧
    (doCreateNodeGroups sampleEnv ⟨"", "a*", true⟩ "" (start (sampleCfg "auto" ["u1"]))).2.trace
      = [Event.Register none] :=
  ⟨(doCreateNodeGroups_flag_source_validation sampleEnv ⟨"", "", true⟩ ""
      (start { Metadata := { Name := "", Region := "us-west-2", Version := "auto" },
               NodeGroups := [unit "u1"] }) rfl (Or.inl rfl)).2 rfl,
   (doCreateNodeGroups_flag_source_validation sampleEnv ⟨"", "a*", true⟩ ""
      (start (sampleCfg "auto" ["u1"])) rfl (Or.inr ⟨by decide, by decide⟩)).2 rfl,
   (doCreateNodeGroups_flag_source_validation sampleEnv ⟨"", "a*", true⟩ ""
      (start (sampleCfg "auto" ["u1"])) rfl (Or.inr ⟨by decide, by decide⟩)).1.2.2⟩

/-! ## The aggregation of the creation outcomes -/

/-- The result of the submission block, from the slice of errors alone. -/
theorem createStep_ret {σ : Type} (env : Env σ) (s : St σ) :
    (createStep env s).1 =
      if (env.CreateAllNodeGroups s.cfg s.world).1.length > 0 then
        Ret.err ("failed to create nodegroups for cluster " ++ env.Quote s.cfg.Metadata.Name)
      else Ret.nil := by
  unfold createStep
  rcases env.CreateAllNodeGroups s.cfg s.world with ⟨errs, w⟩
  simp only
  split_ifs <;> rfl

theorem postCreationStep_calls_clientSet {σ : Type} (env : Env σ) (g : Globals) (s : St σ) :
    ∃ err, Event.NewStdClientSet err ∈ (postCreationStep env g s).2.trace := by
  unfold postCreationStep
  rcases env.NewStdClientSet s.cfg s.world with ⟨err, w⟩
  cases err with
  | some e => exact ⟨some e, by simp⟩
  | none =>
    simp only
    obtain ⟨l, hl, _⟩ := emits_checkEachNodeGroup (checkEmits_postCreationCheck env g)
      { s with world := w, trace := s.trace ++ [Event.NewStdClientSet none] }
    rcases hc : checkEachNodeGroup (postCreationCheck env g)
      { s with world := w, trace := s.trace ++ [Event.NewStdClientSet none] } with ⟨r, s1⟩
    rw [hc] at hl
    simp only at hl
    refine ⟨none, ?_⟩
    cases r with
    | nil => simp [St.emit, hl]
    | err m => simp [hl]
    | panic => simp [hl]

theorem afterCreate_calls_clientSet {σ : Type} (env : Env σ) (g : Globals) (s : St σ) :
    ∃ err, Event.NewStdClientSet err ∈ (afterCreate env g s).2.trace := by
  obtain ⟨err, hmem⟩ := postCreationStep_calls_clientSet env g s
  refine ⟨err, ?_⟩
  unfold afterCreate seq
  rcases hp : postCreationStep env g s with ⟨r, s1⟩
  rw [hp] at hmem
  cases r with
  | nil =>
    obtain ⟨l, hl, _⟩ := emits_trailingStep env s1
    simp only
    rw [hl]
    exact List.mem_append_left _ hmem
  | err m => exact hmem
  | panic => exact hmem

/-- From a trace without submission events, the submission block and all that
follows proceed after a creation without errors. -/
theorem create_then_rest_proceeds {σ : Type} (env : Env σ) (g : Globals) (s : St σ)
    (hs : ∀ e ∈ s.trace, e.isCreate = false ∧ e.isPostCreation = false) :
    ProceedsOnNoErrors (seq (createStep env) (afterCreate env g) s) := by
  obtain ⟨l, hl, _, _, hret⟩ := createStep_trace env s
  unfold seq
  rcases hc : createStep env s with ⟨r, s1⟩
  rw [hc] at hl hret
  simp only at hl hret
  have hnil : ∀ units, Event.CreateAllNodeGroups units [] ∈ s1.trace → r = Ret.nil := by
    intro units hmem
    rw [hl] at hmem
    rcases List.mem_append.mp hmem with h | h
    · have h' := (hs _ h).1
      simp [Event.isCreate] at h'
    · exact (hret units [] h).2 rfl
  cases r with
  | nil =>
    intro units _
    exact afterCreate_calls_clientSet env g s1
  | err m =>
    intro units hmem
    exact absurd (hnil units hmem) (by simp)
  | panic =>
    intro units hmem
    exact absurd (hnil units hmem) (by simp)

/-- Every run of `doCreateNodeGroups` from an empty trace proceeds after a
creation without errors. -/
theorem doCreateNodeGroups_proceedsOnNoErrors {σ : Type} (env : Env σ) (g : Globals)
    (nameArg : String) (s : St σ) (hstart : s.trace = []) :
    ProceedsOnNoErrors (doCreateNodeGroups env g nameArg s) := by
  have hmid : ∀ e : Event, e.Quiet → e.isCreate = false ∧ e.isPostCreation = false :=
    fun _ h => h.2
  have hstop : ∀ (r : Ret) (s1 : St σ),
      (∀ e ∈ s1.trace, e.isCreate = false ∧ e.isPostCreation = false) → r ≠ Ret.nil →
      ProceedsOnNoErrors (r, s1) := by
    intro r s1 hs1 _ units hmem
    have h := (hs1 _ hmem).1
    simp [Event.isCreate] at h
  exact seq_preserves (emits_mono (emits_registerStep env) hmid) hstop
    (seq_preserves (emits_mono (emits_sourceStep env g nameArg) hmid) hstop
      (seq_preserves (emits_mono (emits_connectSteps env g) hmid) hstop
        (seq_preserves (emits_resolveStep env) hstop
          (seq_preserves (emits_mono (emits_logObjStep env) hmid) hstop
            (seq_preserves (emits_mono (emits_stackManagerStep env) hmid) hstop
              (create_then_rest_proceeds env g)))))) s (by simp [hstart])

/-- C13, as amended: the block that calls `CreateAllNodeGroups` returns the
aggregate failure "failed to create nodegroups for cluster ..." if and only
if the slice it received is not empty, whatever the slice holds; and in every
run of `doCreateNodeGroups`, a non-empty slice gives that failure as the
result of the command, with no reconciliation, while the empty slice lets the
run go on to post-provisioning reconciliation (the client set is asked for). -/
theorem doCreateNodeGroups_aggregate_iff_nonempty {σ : Type} (env : Env σ) (g : Globals)
    (nameArg : String) (s : St σ) (units : List String) (errs : List (Option String))
    (hstart : s.trace = [])
    (hmem : Event.CreateAllNodeGroups units errs ∈ (doCreateNodeGroups env g nameArg s).2.trace) :
    (∀ s1 : St σ,
      (createStep env s1).1 =
        Ret.err ("failed to create nodegroups for cluster " ++ env.Quote s1.cfg.Metadata.Name)
      ↔ (env.CreateAllNodeGroups s1.cfg s1.world).1 ≠ []) ∧
    (errs ≠ [] →
      (doCreateNodeGroups env g nameArg s).1 =
        Ret.err ("failed to create nodegroups for cluster "
          ++ env.Quote (doCreateNodeGroups env g nameArg s).2.cfg.Metadata.Name) ∧
      ∀ e ∈ (doCreateNodeGroups env g nameArg s).2.trace, e.isPostCreation = false) ∧
    (errs = [] →
      ∃ err, Event.NewStdClientSet err ∈ (doCreateNodeGroups env g nameArg s).2.trace) := by
  refine ⟨fun s1 => ?_, fun hne => ?_, fun hnil => ?_⟩
  · rw [createStep_ret]
    cases hc : (env.CreateAllNodeGroups s1.cfg s1.world).1 with
    | nil => simp
    | cons a rest => simp
  · exact doCreateNodeGroups_stopsOnCreateErrors env g nameArg s hstart units errs hmem hne
  · subst hnil
    exact doCreateNodeGroups_proceedsOnNoErrors env g nameArg s hstart units hmem

/-- C13 at concrete inputs: the backend returns the empty slice and the run goes
on to reconciliation; the backend returns a slice with one error and the
command fails. -/
theorem doCreateNodeGroups_aggregate_iff_nonempty_witness :
    (∃ err, Event.NewStdClientSet err ∈ (doCreateNodeGroups sampleEnv ⟨"", "", true⟩ ""
        (start (sampleCfg "auto" ["u1", "u2"]))).2.trace) ∧
    (doCreateNodeGroups partialFailureEnv ⟨"", "", true⟩ ""
        (start (sampleCfg "auto" ["u1", "u2", "u3"]))).1
      = Ret.err "failed to create nodegroups for cluster \"c1\"" :=
  ⟨(doCreateNodeGroups_aggregate_iff_nonempty sampleEnv ⟨"", "", true⟩ ""
      (start (sampleCfg "auto" ["u1", "u2"])) ["u1", "u2"] [] rfl (by decide)).2.2 rfl,
   ((doCreateNodeGroups_aggregate_iff_nonempty partialFailureEnv ⟨"", "", true⟩ ""
      (start (sampleCfg "auto" ["u1", "u2", "u3"])) ["u1", "u2", "u3"]
      [none, some "creating stack for u2 failed", none] rfl (by decide)).2.1 (by decide)).1⟩

/-- C13 as stated fails: two units are submitted and the backend returns one
outcome per unit, both nil, so no outcome is an error; yet the command
returns the aggregate failure and the trace holds no reconciliation event. -/
theorem doCreateNodeGroups_all_nil_outcomes_fail :
    Event.CreateAllNodeGroups ["u1", "u2"] [none, none]
      ∈ (doCreateNodeGroups nilOutcomesEnv ⟨"", "", true⟩ ""
          (start (sampleCfg "auto" ["u1", "u2"]))).2.trace ∧
    (∀ outcome ∈ ([none, none] : List (Option String)), outcome = none) ∧
    (doCreateNodeGroups nilOutcomesEnv ⟨"", "", true⟩ ""
        (start (sampleCfg "auto" ["u1", "u2"]))).1
      = Ret.err "failed to create nodegroups for cluster \"c1\"" ∧
    (doCreateNodeGroups nilOutcomesEnv ⟨"", "", true⟩ ""
        (start (sampleCfg "auto" ["u1", "u2"]))).2.trace.filter Event.isPostCreation = [] := by
  decide

end Eksctl
